import Mathlib

/-!
Verification of the response-normalization core of the survey_FE repository.

We model a fragment of JavaScript values (`JsVal`) and translate the
normalization functions of the repository into Lean:

* `extractPlanCandidate` from `src/client/src/lib/anomalyBackend.ts`
* the inline option extraction of `convertSurveyToRenderedPages`
  from `src/client/src/lib/plannerBackend.ts` (`extractOptions`)
* the nested-rule conversion inside `generateSurveyRules`
  from `src/client/src/lib/plannerBackend.ts` (`convertRule`)
* `getText` / `getUserLanguagePreference` / `getBothLanguages`
  from the bilingual helpers
* `isPromptValidationError` / `handlePromptValidationError`
  from the prompt-validation module

Fallible JavaScript code (property access on `null`/`undefined`, calling
`.map` on a non-array) is modelled in the `Except Unit` monad: `.error ()`
stands for a thrown `TypeError`.
-/

namespace SurveyFE

/-- A JavaScript value, as produced by `JSON.parse` extended with
`undefined` (which the repository's code manufactures and tests for).
Objects are ordered association lists; lookup takes the first match. -/
inductive JsVal where
  | undef : JsVal
  | null : JsVal
  | bool (b : Bool) : JsVal
  | num (n : Int) : JsVal
  | str (s : String) : JsVal
  | arr (elems : List JsVal) : JsVal
  | obj (fields : List (String × JsVal)) : JsVal
deriving Repr

mutual

def JsVal.beqV : JsVal → JsVal → Bool
  | .undef, .undef => true
  | .null, .null => true
  | .bool a, .bool b => a == b
  | .num a, .num b => a == b
  | .str a, .str b => a == b
  | .arr xs, .arr ys => JsVal.beqL xs ys
  | .obj fs, .obj gs => JsVal.beqF fs gs
  | _, _ => false

def JsVal.beqL : List JsVal → List JsVal → Bool
  | [], [] => true
  | x :: xs, y :: ys => JsVal.beqV x y && JsVal.beqL xs ys
  | _, _ => false

def JsVal.beqF : List (String × JsVal) → List (String × JsVal) → Bool
  | [], [] => true
  | (k, x) :: xs, (l, y) :: ys => k == l && JsVal.beqV x y && JsVal.beqF xs ys
  | _, _ => false

end

mutual

def JsVal.beqV_iff : ∀ a b : JsVal, JsVal.beqV a b = true ↔ a = b
  | .undef, b => by cases b <;> simp [JsVal.beqV]
  | .null, b => by cases b <;> simp [JsVal.beqV]
  | .bool a, b => by cases b <;> simp [JsVal.beqV]
  | .num a, b => by cases b <;> simp [JsVal.beqV]
  | .str a, b => by cases b <;> simp [JsVal.beqV]
  | .arr xs, b => by
      cases b <;> simp [JsVal.beqV]
      exact JsVal.beqL_iff xs _
  | .obj fs, b => by
      cases b <;> simp [JsVal.beqV]
      exact JsVal.beqF_iff fs _

def JsVal.beqL_iff : ∀ xs ys : List JsVal, JsVal.beqL xs ys = true ↔ xs = ys
  | [], ys => by cases ys <;> simp [JsVal.beqL]
  | x :: xs, ys => by
      cases ys with
      | nil => simp [JsVal.beqL]
      | cons y ys =>
        simp [JsVal.beqL, Bool.and_eq_true, JsVal.beqV_iff x y, JsVal.beqL_iff xs ys]

def JsVal.beqF_iff :
    ∀ fs gs : List (String × JsVal), JsVal.beqF fs gs = true ↔ fs = gs
  | [], gs => by cases gs <;> simp [JsVal.beqF]
  | (k, x) :: fs, gs => by
      cases gs with
      | nil => simp [JsVal.beqF]
      | cons g gs =>
        obtain ⟨l, y⟩ := g
        simp [JsVal.beqF, Bool.and_eq_true, JsVal.beqV_iff x y, JsVal.beqF_iff fs gs,
          and_assoc]

end

instance : DecidableEq JsVal := fun a b =>
  decidable_of_iff (JsVal.beqV a b = true) (JsVal.beqV_iff a b)

instance {e a : Type} [DecidableEq e] [DecidableEq a] : DecidableEq (Except e a) :=
  fun x y =>
  match x, y with
  | .ok v, .ok w =>
    if h : v = w then .isTrue (by rw [h]) else .isFalse (by intro hh; cases hh; exact h rfl)
  | .error v, .error w =>
    if h : v = w then .isTrue (by rw [h]) else .isFalse (by intro hh; cases hh; exact h rfl)
  | .ok _, .error _ => .isFalse (by intro hh; cases hh)
  | .error _, .ok _ => .isFalse (by intro hh; cases hh)

/-! ## JavaScript primitive semantics -/

/-- JavaScript truthiness. (`NaN` is not representable in our integer
number model; no code under scrutiny produces it.) -/
def truthy : JsVal → Bool
  | .undef => false
  | .null => false
  | .bool b => b
  | .num n => n ≠ 0
  | .str s => s ≠ ""
  | .arr _ => true
  | .obj _ => true

/-- First-match lookup in an object's field list. -/
def fieldLookup (k : String) : List (String × JsVal) → Option JsVal
  | [] => none
  | (a, v) :: rest => if a = k then some v else fieldLookup k rest

/-- The field of an object, if the receiver is an object and the key is
present (`k in v` in JavaScript). -/
def jsField (v : JsVal) (k : String) : Option JsVal :=
  match v with
  | .obj fs => fieldLookup k fs
  | _ => none

/-- Property read `v.k` on a receiver that is not `null`/`undefined`:
missing keys and non-object receivers (numbers, strings, arrays — none of
whose built-in properties are read by the embedded code) give `undefined`. -/
def getPropP (v : JsVal) (k : String) : JsVal :=
  (jsField v k).getD JsVal.undef

/-- Property read `v.k` in the exception monad: reading a property of
`null` or `undefined` throws a `TypeError`. -/
def jsGet (v : JsVal) (k : String) : Except Unit JsVal :=
  match v with
  | .undef => .error ()
  | .null => .error ()
  | v => .ok (getPropP v k)

/-- Optional chaining `v?.k`: never throws. -/
def jsGetOpt (v : JsVal) (k : String) : JsVal :=
  match v with
  | .undef => .undef
  | .null => .undef
  | v => getPropP v k

/-- JavaScript `a || b` (truthiness-based). -/
def jsOr (a b : JsVal) : JsVal :=
  if truthy a then a else b

/-- `Array.isArray`. -/
def isArr : JsVal → Bool
  | .arr _ => true
  | _ => false

/-- JavaScript `typeof`. -/
def jsTypeof : JsVal → String
  | .undef => "undefined"
  | .null => "object"
  | .bool _ => "boolean"
  | .num _ => "number"
  | .str _ => "string"
  | .arr _ => "object"
  | .obj _ => "object"

/-- `Object.values` (for the receivers the embedded code applies it to:
objects and arrays; its string case is unreachable there because string
receivers are filtered out first). -/
def objValues : JsVal → List JsVal
  | .obj fs => fs.map (·.2)
  | .arr xs => xs
  | _ => []

/-- `xs[0]` on a plain list of values. -/
def headOrUndef : List JsVal → JsVal
  | [] => .undef
  | x :: _ => x

/-- The repeated pattern `(x !== null && x !== undefined) ? x : undefined`. -/
def nullToUndef : JsVal → JsVal
  | .null => .undef
  | .undef => .undef
  | v => v

/-- `k in v` (key presence test). -/
def hasKey (v : JsVal) (k : String) : Bool :=
  (jsField v k).isSome

mutual

/-- JavaScript string coercion (`ToString`): objects print as
`[object Object]`, arrays join their elements (with `null`/`undefined`
elements printing as empty) with commas. -/
def jsToString : JsVal → String
  | .undef => "undefined"
  | .null => "null"
  | .bool b => cond b "true" "false"
  | .num n => toString n
  | .str s => s
  | .arr xs => String.intercalate "," (jsToStringElems xs)
  | .obj _ => "[object Object]"

def jsToStringElems : List JsVal → List String
  | [] => []
  | .undef :: rest => "" :: jsToStringElems rest
  | .null :: rest => "" :: jsToStringElems rest
  | v :: rest => jsToString v :: jsToStringElems rest

end

/-- `Array.prototype.join(sep)`: elements coerced with `ToString`,
`null`/`undefined` elements become the empty string. -/
def jsJoin (sep : String) (xs : List JsVal) : String :=
  String.intercalate sep (jsToStringElems xs)

/-- `ToLength` as used by `Array.from({length: n})`: negative and
non-numeric values clamp to `0`. Only numeric inputs are exercised by the
code paths we verify; the remaining coercions follow the JavaScript
`ToNumber`-then-clamp pipeline on our value fragment. -/
def jsToLength : JsVal → Nat
  | .num n => n.toNat
  | .bool b => cond b 1 0
  | .str s => (s.toNat?).getD 0
  | .undef => 0
  | .null => 0
  | .arr xs => ((jsToString (.arr xs)).toNat?).getD 0
  | .obj _ => 0

/-- Sequential monadic map, mirroring `Array.prototype.map` with a callback
that may throw: the first thrown error aborts the whole map. -/
def exMapM (f : JsVal → Except Unit JsVal) : List JsVal → Except Unit (List JsVal)
  | [] => .ok []
  | x :: xs => do
    let y ← f x
    let ys ← exMapM f xs
    .ok (y :: ys)

/-- Sequential monadic map with the element index, for
`arr.map((x, idx) => ...)` callbacks. -/
def exMapIdxM (f : Nat → JsVal → Except Unit JsVal) :
    Nat → List JsVal → Except Unit (List JsVal)
  | _, [] => .ok []
  | i, x :: xs => do
    let y ← f i x
    let ys ← exMapIdxM f (i + 1) xs
    .ok (y :: ys)

/-- `.map` applied to a value that must be an array (after a `|| []`
default kept a truthy non-array, JavaScript throws a `TypeError`). -/
def jsMapM (f : JsVal → Except Unit JsVal) : JsVal → Except Unit (List JsVal)
  | .arr xs => exMapM f xs
  | _ => .error ()

/-! ## Bilingual text helpers (`bilingual.ts`) -/

/-- The JavaScript `\s` character class (WhiteSpace and LineTerminator),
also the set stripped by `String.prototype.trim`. -/
def jsWsChar (c : Char) : Bool :=
  c.toNat ∈ ([0x9, 0xA, 0xB, 0xC, 0xD, 0x20, 0xA0, 0x1680,
    0x2000, 0x2001, 0x2002, 0x2003, 0x2004, 0x2005, 0x2006, 0x2007,
    0x2008, 0x2009, 0x200A, 0x2028, 0x2029, 0x202F, 0x205F, 0x3000,
    0xFEFF] : List Nat)

/-- A character matched by the regex metacharacter `.` (without the `s`
flag): everything except line terminators. -/
def jsDotChar (c : Char) : Bool :=
  ¬ (c.toNat = 0xA ∨ c.toNat = 0xD ∨ c.toNat = 0x2028 ∨ c.toNat = 0x2029)

/-- `String.prototype.trim` on character lists. -/
def jsTrimL (cs : List Char) : List Char :=
  ((cs.dropWhile jsWsChar).reverse.dropWhile jsWsChar).reverse

/-- `String.prototype.trim`. -/
def jsTrim (s : String) : String :=
  ⟨jsTrimL s.data⟩

/-- The greedy-with-backtracking `\s*(.+)$` step after the slash of the
combined pattern: try the longest whitespace run first, then shorter ones,
until the remaining group-2 candidate is non-empty and all matched by `.`.
The counter starts at the length of the maximal whitespace run of `R`. -/
def pickB (R : List Char) : Nat → Option (List Char)
  | 0 => if R ≠ [] ∧ R.all jsDotChar then some R else none
  | i + 1 =>
    let B := R.drop (i + 1)
    if B ≠ [] ∧ B.all jsDotChar then some B else pickB R i

/-- Match `\s*(.+)$` against the text after the `/`, returning group 2. -/
def slashTail (R : List Char) : Option (List Char) :=
  pickB R (R.takeWhile jsWsChar).length

/-- Match `\s*\/\s*(.+)$` against the text after group 1. The first `\s*`
is forced: it can only stop at the `/` (whitespace is never `/`). -/
def afterA (rem : List Char) : Option (List Char) :=
  match rem.drop ((rem.takeWhile jsWsChar).length) with
  | [] => none
  | c :: R => if c = '/' then slashTail R else none

/-- The lazy scan of `^(.+?)`: extend group 1 one character at a time
(each must be matched by `.`) and take the first position where the rest
of the pattern matches. -/
def goA (acc : List Char) : List Char → Option (List Char × List Char)
  | [] => none
  | c :: rest =>
    if jsDotChar c then
      match afterA rest with
      | some B => some (acc ++ [c], B)
      | none => goA (acc ++ [c]) rest
    else none

/-- `s.match` with the combined-bilingual pattern of `bilingual.ts`,
`^(.+?)\s*\/\s*(.+)$`: the two capture groups, when the pattern matches. -/
def matchCombined (s : String) : Option (List Char × List Char) :=
  goA [] s.data

/-- `getText` from `bilingual.ts`: extract one language from a bilingual
field. Non-string results of `field.en` / `field.ar` are passed through
unchanged, as in the source. -/
def getText (field : JsVal) (userLang : String) : JsVal :=
  if ¬ truthy field then .str ""
  else
    match field with
    | .str s => .str s
    | f =>
      if jsTypeof f = "object" ∧ hasKey f "en" ∧ hasKey f "ar" then
        if userLang = "ar" then getPropP f "ar" else getPropP f "en"
      else .str ""

/-- `getUserLanguagePreference` from `bilingual.ts`. The embedded caller
passes no override, i.e. `undefined`. -/
def getUserLanguagePreference (planLanguage : JsVal) (overrideLang : JsVal) : String :=
  if truthy overrideLang then jsToString overrideLang
  else if planLanguage = .str "ar" then "ar"
  else "en"

/-- `getBothLanguages` from `bilingual.ts` (the `resolveBoth` of the
spec): result is the `{en, ar}` object the function returns. The source's
`match && match[1] && match[2]` truthiness test is vacuous (both capture
groups are non-empty whenever the regex matches) and is therefore not
repeated here. -/
def getBothLanguages (field : JsVal) : JsVal :=
  if ¬ truthy field then .obj [("en", .str ""), ("ar", .str "")]
  else
    match field with
    | .str s =>
      (matchCombined s).elim (.obj [("en", .str s), ("ar", .str s)]) (fun g =>
        if jsTrim ⟨g.1⟩ ≠ "" ∧ jsTrim ⟨g.2⟩ ≠ "" ∧ jsTrim ⟨g.1⟩ ≠ jsTrim ⟨g.2⟩ then
          .obj [("en", .str (jsTrim ⟨g.1⟩)), ("ar", .str (jsTrim ⟨g.2⟩))]
        else .obj [("en", .str s), ("ar", .str s)])
    | f =>
      if jsTypeof f = "object" ∧ hasKey f "en" ∧ hasKey f "ar" then
        .obj [("en", jsOr (getPropP f "en") (.str "")),
              ("ar", jsOr (getPropP f "ar") (.str ""))]
      else .obj [("en", .str ""), ("ar", .str "")]

/-! ## `extractPlanCandidate` (`anomalyBackend.ts`, lines 79–341)

The converter is translated branch by branch. The source function calls
itself on two synthetic one/two-key objects (the `data.rendered_pages` and
`data.generated_questions` unwrappings); those synthetic arguments
deterministically reach the `rendered_pages` resp. `generated_questions`
branch of the recursive call, so the self-calls are replaced here by direct
calls to the corresponding branch converters. -/

/-- The per-control question builder of the `survey.pages` branch
(`anomalyBackend.ts` lines 99–175). -/
def convertSurveyControl (control : JsVal) : Except Unit JsVal := do
  let label := jsOr (← jsGet control "label") (.obj [])
  let questionText : JsVal :=
    match label with
    | .str s => .str s
    | _ =>
      let enText := jsOr (getPropP label "en") (.str "")
      let arText := jsOr (getPropP label "ar") (.str "")
      if truthy enText ∧ truthy arText then .obj [("en", enText), ("ar", arText)]
      else jsOr enText (jsOr arText (jsOr (headOrUndef (objValues label)) (.str "")))
  let settings ← jsGet control "settings"
  let props ← jsGet control "props"
  let optionsArray := jsOr (jsGetOpt (jsGetOpt settings "props") "options")
    (jsGetOpt props "options")
  let options ← (match optionsArray with
    | .arr os =>
      if os.length > 0 then
        os.foldlM (fun acc opt => do
          let optLabel := jsOr (← jsGet opt "label") (.obj [])
          match optLabel with
          | .str s => pure (acc ++ [JsVal.str s])
          | _ =>
            let enOpt := jsOr (getPropP optLabel "en") (.str "")
            let arOpt := jsOr (getPropP optLabel "ar") (.str "")
            if truthy enOpt ∧ truthy arOpt then
              pure (acc ++ [JsVal.obj [("en", enOpt), ("ar", arOpt)]])
            else pure (acc ++ [jsOr enOpt arOpt])) ([] : List JsVal)
      else pure []
    | _ => pure [])
  let scaleData := jsOr (jsGetOpt (jsGetOpt settings "props") "scale")
    (jsGetOpt props "scale")
  -- The source's ternaries on `scaleData.labels.min` / `.max` return the
  -- same value in both arms, so the labels object is built directly.
  let scale : JsVal :=
    if truthy scaleData then
      let labelsV := getPropP scaleData "labels"
      .obj [("min", getPropP scaleData "min"), ("max", getPropP scaleData "max"),
        ("labels",
          if truthy labelsV then
            JsVal.obj [("min", getPropP labelsV "min"), ("max", getPropP labelsV "max")]
          else .undef)]
    else .undef
  let questionType0 := jsOr (← jsGet control "type") (.str "text")
  let questionType := if questionType0 = JsVal.str "select" then JsVal.str "dropdown_list"
    else questionType0
  let finalScale := nullToUndef scale
  let finalValidation := nullToUndef (jsGetOpt settings "validations")
  let finalSkipLogic := nullToUndef (← jsGet control "skip_logic")
  let required := jsOr (jsGetOpt (jsGetOpt settings "validations") "required") (.bool false)
  let specId := jsOr (← jsGet control "id") (jsOr (← jsGet control "name") (.str ""))
  pure (JsVal.obj [("text", questionText), ("type", questionType),
    ("options", if options.length > 0 then .arr options else .undef),
    ("required", required), ("spec_id", specId), ("scale", finalScale),
    ("validation", finalValidation), ("skip_logic", finalSkipLogic)])

/-- A page of the `survey.pages` branch (`anomalyBackend.ts` lines 97–181):
`controls` and the questions are computed before the title expression. -/
def convertSurveyPage (idx : Nat) (page : JsVal) : Except Unit JsVal := do
  let controls := jsOr (← jsGet page "controls") (.arr [])
  let questions ← jsMapM convertSurveyControl controls
  let pn ← jsGet page "name"
  let title ← (if jsTypeof pn = "object" then do
      let e ← jsGet pn "en"
      let a ← jsGet pn "ar"
      pure (jsOr e (jsOr a (headOrUndef (objValues pn))))
    else do
      let t ← jsGet page "title"
      pure (jsOr pn (jsOr t (.str ("Page " ++ toString (idx + 1))))))
  pure (JsVal.obj [("title", title), ("questions", .arr questions)])

/-- The `survey.pages` branch (`anomalyBackend.ts` lines 91–185). -/
def convertSurveyBranch (r : JsVal) : Except Unit JsVal := do
  let survey := getPropP r "survey"
  let sections ← (match getPropP survey "pages" with
    | .arr ps => exMapIdxM convertSurveyPage 0 ps
    | _ => .error ())
  let st ← jsGet survey "title"
  let sugg ← (if jsTypeof st = "object" then do
      let e ← jsGet st "en"
      let a ← jsGet st "ar"
      pure (jsOr e (jsOr a (headOrUndef (objValues st))))
    else pure (jsOr st (.str "")))
  pure (JsVal.obj [("sections", .arr sections), ("suggestedName", sugg)])

/-- A question of the `rendered_pages` branch (`anomalyBackend.ts`
lines 192–201). -/
def convertRenderedQ (q : JsVal) : Except Unit JsVal := do
  let text := jsOr (← jsGet q "question_text") (jsOr (← jsGet q "text") (.str ""))
  let ty := jsOr (← jsGet q "question_type") (jsOr (← jsGet q "type") (.str "text"))
  let optionsV ← jsGet q "options"
  let options := (match optionsV with
    | .arr os => if os.length > 0 then JsVal.arr os else JsVal.undef
    | _ => JsVal.undef)
  let required ← jsGet q "required"
  let specId ← jsGet q "spec_id"
  let scale := nullToUndef (← jsGet q "scale")
  let validation := nullToUndef (← jsGet q "validation")
  let skipLogic := nullToUndef (← jsGet q "skip_logic")
  pure (JsVal.obj [("text", text), ("type", ty), ("options", options),
    ("required", required), ("spec_id", specId), ("scale", scale),
    ("validation", validation), ("skip_logic", skipLogic)])

/-- A page of the `rendered_pages` branch (`anomalyBackend.ts` lines
190–202): the title expression comes first in the object literal, so a
`null` page throws at `page.name`. -/
def convertRenderedPage (page : JsVal) : Except Unit JsVal := do
  let pn ← jsGet page "name"
  let pnum ← jsGet page "page_number"
  let title := jsOr pn (.str ("Page " ++ jsToString (jsOr pnum (.str ""))))
  let questions ← jsMapM convertRenderedQ (jsOr (← jsGet page "questions") (.arr []))
  pure (JsVal.obj [("title", title), ("questions", .arr questions)])

/-- The `rendered_pages` branch (`anomalyBackend.ts` lines 188–205), also
reached by the source's self-call on `{rendered_pages, suggestedName}`. -/
def convertRenderedPages (r : JsVal) : Except Unit JsVal := do
  let sections ← (match getPropP r "rendered_pages" with
    | .arr ps => exMapM convertRenderedPage ps
    | _ => .error ())
  pure (JsVal.obj [("sections", .arr sections),
    ("suggestedName", jsOr (getPropP r "suggestedName") (getPropP r "name"))])

/-- A question of the `generated_questions` branches (`anomalyBackend.ts`
lines 215–224 and the identical lines 235–244). The source's
`q.required !== undefined ? q.required : undefined` is the identity. -/
def convertGQQuestion (q : JsVal) : Except Unit JsVal := do
  let text := jsOr (← jsGet q "question_text")
    (jsOr (← jsGet q "text") (jsOr (← jsGet q "intent") (.str "")))
  let ty := jsOr (← jsGet q "question_type") (jsOr (← jsGet q "type") (.str "text"))
  let optionsV ← jsGet q "options"
  let options := (match optionsV with
    | .arr os => if os.length > 0 then JsVal.arr os else JsVal.undef
    | _ => JsVal.undef)
  let required ← jsGet q "required"
  let specId ← jsGet q "spec_id"
  let scale := nullToUndef (← jsGet q "scale")
  let validation := nullToUndef (← jsGet q "validation")
  let skipLogic := nullToUndef (← jsGet q "skip_logic")
  pure (JsVal.obj [("text", text), ("type", ty), ("options", options),
    ("required", required), ("spec_id", specId), ("scale", scale),
    ("validation", validation), ("skip_logic", skipLogic)])

/-- A page of the `generated_questions` branches (`anomalyBackend.ts`
lines 213–225 / 233–245). -/
def convertGQPage (idx : Nat) (page : JsVal) : Except Unit JsVal := do
  let pn ← jsGet page "name"
  let pt ← jsGet page "title"
  let title := jsOr pn (jsOr pt (.str ("Section " ++ toString (idx + 1))))
  let qsV ← jsGet page "questions"
  let questions ← exMapM convertGQQuestion (match qsV with | .arr qs => qs | _ => [])
  pure (JsVal.obj [("title", title), ("questions", .arr questions)])

/-- The `generated_questions.rendered_pages` branch (`anomalyBackend.ts`
lines 211–228), also reached by the source's self-call on
`{generated_questions, suggestedName}`. -/
def convertGQBranchA (r gq : JsVal) : Except Unit JsVal := do
  let sections ← (match getPropP gq "rendered_pages" with
    | .arr ps => exMapIdxM convertGQPage 0 ps
    | _ => .error ())
  let sugg := jsOr (getPropP r "suggestedName")
    (jsOr (getPropP r "name") (jsGetOpt (getPropP r "plan") "title"))
  pure (JsVal.obj [("sections", .arr sections), ("suggestedName", sugg)])

/-- The legacy map-keyed `generated_questions` branch (`anomalyBackend.ts`
lines 230–248). -/
def convertGQBranchB (r : JsVal) (pages : List JsVal) : Except Unit JsVal := do
  let sections ← exMapIdxM convertGQPage 0 pages
  pure (JsVal.obj [("sections", .arr sections),
    ("suggestedName", jsOr (getPropP r "suggestedName") (getPropP r "name"))])

/-- A `question_specs` entry of the `plan.pages` branch
(`anomalyBackend.ts` lines 280–289). Field order follows the source:
`validation`, `skip_logic`, `scale` come last in that order. -/
def convertQuestionSpec (spec : JsVal) : Except Unit JsVal := do
  let text := jsOr (← jsGet spec "intent")
    (jsOr (← jsGet spec "question_text") (jsOr (← jsGet spec "text") (.str "")))
  let ty := jsOr (← jsGet spec "question_type") (jsOr (← jsGet spec "type") (.str "text"))
  let optionsV ← jsGet spec "options_hint"
  let options := (match optionsV with
    | .arr os => if os.length > 0 then JsVal.arr os else JsVal.undef
    | _ => JsVal.undef)
  let required ← jsGet spec "required"
  let specId ← jsGet spec "spec_id"
  let validation := nullToUndef (← jsGet spec "validation")
  let skipLogic := nullToUndef (← jsGet spec "skip_logic")
  let scale := nullToUndef (← jsGet spec "scale")
  pure (JsVal.obj [("text", text), ("type", ty), ("options", options),
    ("required", required), ("spec_id", specId), ("validation", validation),
    ("skip_logic", skipLogic), ("scale", scale)])

/-- A page of the `plan.pages` branch (`anomalyBackend.ts` lines 262–298):
`section_brief` produces placeholder questions, `question_specs` converts
each spec, otherwise the section is empty. -/
def convertPlanPage (userLang : String) (idx : Nat) (page : JsVal) :
    Except Unit JsVal := do
  let sb ← jsGet page "section_brief"
  if truthy sb then
    let questionCount := jsToLength (jsOr (getPropP sb "question_count") (.num 0))
    let title := jsOr (getText (jsOr (getPropP page "name") (getPropP page "title")) userLang)
      (.str ("Section " ++ toString (idx + 1)))
    let questions := (List.range questionCount).map (fun qIdx =>
      JsVal.obj [("text", .str ("Question " ++ toString (qIdx + 1) ++
          " (to be generated from section brief)")),
        ("type", .str "text"), ("section_brief", sb)])
    pure (JsVal.obj [("title", title), ("questions", .arr questions)])
  else
    let qs ← jsGet page "question_specs"
    match qs with
    | .arr specs =>
      if specs.length > 0 then do
        let title := jsOr
          (getText (jsOr (getPropP page "name") (getPropP page "title")) userLang)
          (.str ("Section " ++ toString (idx + 1)))
        let questions ← exMapM convertQuestionSpec specs
        pure (JsVal.obj [("title", title), ("questions", .arr questions)])
      else
        pure (JsVal.obj [("title", jsOr
          (getText (jsOr (getPropP page "name") (getPropP page "title")) userLang)
          (.str ("Section " ++ toString (idx + 1)))), ("questions", .arr [])])
    | _ =>
      pure (JsVal.obj [("title", jsOr
        (getText (jsOr (getPropP page "name") (getPropP page "title")) userLang)
        (.str ("Section " ++ toString (idx + 1)))), ("questions", .arr [])])

/-- The `plan.pages` branch (`anomalyBackend.ts` lines 259–301). -/
def convertPlanBranch (r : JsVal) : Except Unit JsVal := do
  let plan := getPropP r "plan"
  let userLang := getUserLanguagePreference (jsOr (getPropP plan "language") (.str "en")) .undef
  let sections ← (match getPropP plan "pages" with
    | .arr ps => exMapIdxM (convertPlanPage userLang) 0 ps
    | _ => .error ())
  let sugg := jsOr (getText (getPropP plan "title") userLang)
    (jsOr (getPropP r "suggestedName") (getPropP r "name"))
  pure (JsVal.obj [("sections", .arr sections), ("suggestedName", sugg)])

/-- `extractPlanCandidate` (`anomalyBackend.ts` lines 79–341): the
spec's `toCanonicalPlan`. Guards appear in source order. -/
def extractPlanCandidate (raw : JsVal) : Except Unit JsVal :=
  if ¬ truthy raw ∨ jsTypeof raw ≠ "object" then .ok raw
  else
    let r := raw
    let sectionsV := getPropP r "sections"
    let surveyV := getPropP r "survey"
    let rpV := getPropP r "rendered_pages"
    let gqV := getPropP r "generated_questions"
    let planV := getPropP r "plan"
    let dataV := getPropP r "data"
    let resultV := getPropP r "result"
    if truthy sectionsV ∧ isArr sectionsV then .ok r
    else if truthy surveyV ∧ truthy (getPropP surveyV "pages")
        ∧ isArr (getPropP surveyV "pages") then
      convertSurveyBranch r
    else if truthy rpV ∧ isArr rpV then
      convertRenderedPages r
    else if truthy gqV ∧ jsTypeof gqV = "object"
        ∧ truthy (getPropP gqV "rendered_pages") ∧ isArr (getPropP gqV "rendered_pages") then
      convertGQBranchA r gqV
    else if truthy gqV ∧ jsTypeof gqV = "object"
        ∧ (objValues gqV).length > 0
        ∧ truthy (jsGetOpt (headOrUndef (objValues gqV)) "questions") then
      convertGQBranchB r (objValues gqV)
    else if truthy (jsGetOpt (getPropP r "survey_plan") "sections")
        ∧ isArr (jsGetOpt (getPropP r "survey_plan") "sections") then
      .ok (getPropP r "survey_plan")
    else if truthy (jsGetOpt (getPropP r "surveyPlan") "sections")
        ∧ isArr (jsGetOpt (getPropP r "surveyPlan") "sections") then
      .ok (getPropP r "surveyPlan")
    else if truthy (jsGetOpt planV "pages") ∧ isArr (jsGetOpt planV "pages") then
      convertPlanBranch r
    else if truthy (jsGetOpt planV "sections") ∧ isArr (jsGetOpt planV "sections") then
      .ok planV
    else if truthy (jsGetOpt dataV "sections") ∧ isArr (jsGetOpt dataV "sections") then
      .ok dataV
    else if truthy (jsGetOpt resultV "sections") ∧ isArr (jsGetOpt resultV "sections") then
      .ok resultV
    else if truthy (jsGetOpt dataV "rendered_pages") ∧ isArr (jsGetOpt dataV "rendered_pages") then
      convertRenderedPages (.obj [("rendered_pages", jsGetOpt dataV "rendered_pages"),
        ("suggestedName", jsOr (getPropP dataV "suggestedName") (getPropP dataV "name"))])
    else if truthy (jsGetOpt dataV "generated_questions")
        ∧ jsTypeof (jsGetOpt dataV "generated_questions") = "object"
        ∧ truthy (getPropP (jsGetOpt dataV "generated_questions") "rendered_pages")
        ∧ isArr (getPropP (jsGetOpt dataV "generated_questions") "rendered_pages") then
      convertGQBranchA
        (.obj [("generated_questions", jsGetOpt dataV "generated_questions"),
          ("suggestedName", jsOr (getPropP dataV "suggestedName")
            (jsOr (getPropP dataV "name") (jsGetOpt planV "title")))])
        (jsGetOpt dataV "generated_questions")
    else if truthy (getPropP r "questions") ∧ isArr (getPropP r "questions")
        ∧ ¬ truthy sectionsV then
      .ok (.obj [("sections", .arr [.obj [("title", jsOr (getPropP r "title") (.str "Survey Questions")),
          ("questions", getPropP r "questions")]]),
        ("suggestedName", jsOr (getPropP r "suggestedName") (getPropP r "name"))])
    else .ok raw

/-! ## Option extraction of `convertSurveyToRenderedPages`
(`plannerBackend.ts`, lines 311–361) -/

/-- `Object.values(optLabel).find(v => v && typeof v === 'string')`. -/
def findTruthyString : List JsVal → JsVal
  | [] => .undef
  | v :: rest => if truthy v ∧ jsTypeof v = "string" then v else findTruthyString rest

/-- The option-text computation inside the per-option `try` block of
`convertSurveyToRenderedPages` (`plannerBackend.ts` lines 319–334). -/
def extractOptionText (opt : JsVal) : Except Unit JsVal := do
  let optLabel := jsOr (← jsGet opt "label") (.obj [])
  match optLabel with
  | .str s => pure (.str s)
  | _ =>
    if truthy optLabel ∧ jsTypeof optLabel = "object" then
      let enOpt := jsOr (getPropP optLabel "en") (.str "")
      let arOpt := jsOr (getPropP optLabel "ar") (.str "")
      if truthy enOpt ∧ truthy arOpt then
        pure (.str (jsToString enOpt ++ " / " ++ jsToString arOpt))
      else
        pure (jsOr enOpt (jsOr arOpt (jsOr (findTruthyString (objValues optLabel)) (.str ""))))
    else pure (.str "")

/-- One iteration of the options `forEach` (`plannerBackend.ts` lines
317–345): a throw inside the loop body (a `null` option entry, or calling
`.trim()` on a non-string option text) is caught by the source's `catch`,
which only logs; empty-after-trim texts are dropped. -/
def extractOptionStep (acc : List String) (opt : JsVal) : List String :=
  match ((do
    let t ← extractOptionText opt
    match t with
    | .str s => pure s
    | _ => Except.error ()) : Except Unit String) with
  | .error _ => acc
  | .ok s => if (jsTrim s).length > 0 then acc ++ [s] else acc

/-- The inline option extraction of `convertSurveyToRenderedPages`
(`plannerBackend.ts` lines 311–361): the spec's `extractOptions(control)`.
The `else if` arm for optionless choice-type controls only logs a warning,
leaving the result the initial empty array. -/
def extractOptions (control : JsVal) : Except Unit (List String) := do
  let settings ← jsGet control "settings"
  let props ← jsGet control "props"
  let optionsArray := jsOr (jsGetOpt (jsGetOpt settings "props") "options")
    (jsGetOpt props "options")
  match optionsArray with
  | .arr os => if os.length > 0 then pure (os.foldl extractOptionStep []) else pure []
  | _ => pure []

/-! ## Nested-rule conversion inside `generateSurveyRules`
(`plannerBackend.ts`, lines 1322–1373) -/

/-- `x[0]` (computed member access with index 0). -/
def jsIndexZero : JsVal → JsVal
  | .arr xs => headOrUndef xs
  | .obj fs => (fieldLookup "0" fs).getD .undef
  | .str s =>
    match s.data with
    | [] => .undef
    | c :: _ => .str (String.mk [c])
  | _ => JsVal.undef

/-- `x?.[0]`. -/
def jsIndexZeroOpt : JsVal → JsVal
  | .undef => .undef
  | .null => .undef
  | v => jsIndexZero v

/-- One condition of the nested `if.when` form (`plannerBackend.ts`
lines 1327–1339). -/
def convertRuleCondition (cond : JsVal) : Except Unit JsVal := do
  let lo ← jsGet cond "leftOperand"
  let op ← jsGet cond "operator"
  let ro ← jsGet cond "rightOperand"
  pure (JsVal.obj [
    ("left_side", .obj [("type", jsOr (jsGetOpt lo "type") (.str "question")),
      ("question_id", jsOr (jsGetOpt lo "value") (.str "")),
      ("data_type", jsGetOpt lo "data_type")]),
    ("operator", jsOr op (.str "")),
    ("right_side", .obj [("type", jsOr (jsGetOpt ro "type") (.str "value")),
      ("value", jsOr (jsGetOpt ro "value") (.str "")),
      ("data_type", jsGetOpt ro "data_type")])])

/-- One action of the nested `if.then` form (`plannerBackend.ts`
lines 1342–1361). -/
def convertRuleAction (action : JsVal) : Except Unit JsVal := do
  let target ← jsGet action "target"
  let ids := jsGetOpt target "ids"
  let actionElement : JsVal :=
    match ids with
    | .arr xs => .str (jsJoin ", " xs)
    | _ =>
      if truthy ids then ids
      else if truthy (jsGetOpt target "type") then jsGetOpt target "type"
      else .str ""
  let ty ← jsGet action "type"
  let message ← jsGet action "message"
  let sequence ← jsGet action "sequence"
  let actionAnswer ← jsGet action "action_answer"
  pure (JsVal.obj [("type", jsOr ty (.str "")),
    ("action_element", actionElement),
    ("message_en", jsGetOpt message "en"),
    ("message_ar", jsGetOpt message "ar"),
    ("sequence", sequence),
    ("action_answer", actionAnswer)])

/-- The per-rule body of `rulesArray.map` in `generateSurveyRules`
(`plannerBackend.ts` lines 1322–1373): a nested `if.when/then` rule
becomes a flat `meta_rule`/`conditions`/`actions` rule. -/
def convertRule (rule : JsVal) : Except Unit JsVal := do
  let ifV ← jsGet rule "if"
  let ruleType := jsOr (jsGetOpt (jsIndexZeroOpt (jsGetOpt ifV "then")) "type") (.str "unknown")
  let conditions ← jsMapM convertRuleCondition (jsOr (jsGetOpt ifV "when") (.arr []))
  let actions ← jsMapM convertRuleAction (jsOr (jsGetOpt ifV "then") (.arr []))
  let rid ← jsGet rule "id"
  let desc ← jsGet rule "description"
  pure (JsVal.obj [("meta_rule", .obj [("rule_id", jsOr rid (.str "")),
      ("rule_type", ruleType),
      ("description_en", jsOr (jsGetOpt desc "en") (.str "")),
      ("description_ar", jsOr (jsGetOpt desc "ar") (.str ""))]),
    ("conditions", .arr conditions), ("actions", .arr actions)])

/-! ## Prompt-validation classifier (`promptValidationError.ts`) -/

/-- The fixed reason-code enumeration. -/
def validReasonCodes : List String :=
  ["too_short", "gibberish", "keyboard_walk", "repetitive", "unsupported",
   "needs_clarification"]

/-- The data the `PromptValidationError` constructor stores from the
payload's `detail` (its `message` goes to the `Error` superclass). -/
structure PromptValidationError where
  message : JsVal
  reasonCode : JsVal
  suggestedPrompt : JsVal
deriving Repr, DecidableEq

/-- `isPromptValidationError` (`promptValidationError.ts` lines 60–100).
`Array.prototype.includes` (strict equality against the fixed list) is
modelled by decidable list membership. -/
def isPromptValidationError (status : Int) (errorData : JsVal) : Bool :=
  if status ≠ 422 then false
  else if ¬ truthy errorData ∨ jsTypeof errorData ≠ "object" then false
  else if ¬ truthy (getPropP errorData "detail")
      ∨ jsTypeof (getPropP errorData "detail") ≠ "object" then false
  else if ¬ truthy (getPropP (getPropP errorData "detail") "reason_code")
      ∨ getPropP (getPropP errorData "detail") "reason_code"
          ∉ validReasonCodes.map JsVal.str then false
  else if ¬ truthy (getPropP (getPropP errorData "detail") "message")
      ∨ jsTypeof (getPropP (getPropP errorData "detail") "message") ≠ "string" then false
  else if getPropP (getPropP errorData "detail") "suggested_prompt" ≠ JsVal.null
      ∧ getPropP (getPropP errorData "detail") "suggested_prompt" ≠ JsVal.undef
      ∧ jsTypeof (getPropP (getPropP errorData "detail") "suggested_prompt") ≠ "string" then
    false
  else true

/-- `handlePromptValidationError` (`promptValidationError.ts` lines
115–143): the spec's `classify`. `JSON.parse` is the platform's and is
supplied as an oracle `parse` (`none` models a parse exception, which the
source catches); a thrown `PromptValidationError` is the `.error` case. -/
def handlePromptValidationError (status : Int) (errorText : String)
    (parse : String → Option JsVal) : Except PromptValidationError Bool :=
  if status ≠ 422 then .ok false
  else
    (if errorText ≠ "" then parse errorText else some .null).elim (.ok false)
      (fun errorData =>
        if ¬ isPromptValidationError status errorData then .ok false
        else
          .error ⟨getPropP (getPropP errorData "detail") "message",
            getPropP (getPropP errorData "detail") "reason_code",
            getPropP (getPropP errorData "detail") "suggested_prompt"⟩)

/-- The claim-side condition on a parsed 422 body, spelled as the spec
words it: `detail.reason_code` is drawn from the fixed enumeration,
`detail.message` is a non-empty string, and `detail.suggested_prompt` is
a string or `null` if present. -/
def claimPromptDetailOk (v : JsVal) : Prop :=
  (∃ rc ∈ validReasonCodes, getPropP (getPropP v "detail") "reason_code" = .str rc) ∧
  (∃ m : String, getPropP (getPropP v "detail") "message" = .str m ∧ m ≠ "") ∧
  (getPropP (getPropP v "detail") "suggested_prompt" = .null ∨
   getPropP (getPropP v "detail") "suggested_prompt" = .undef ∨
   ∃ sp : String, getPropP (getPropP v "detail") "suggested_prompt" = .str sp)

/-- A sample well-formed 422 body, for concrete instantiations. -/
def pvSampleBody : JsVal :=
  .obj [("detail", .obj [("reason_code", .str "too_short"),
    ("message", .str "Too short"), ("suggested_prompt", .str "Try more")])]

/-- A sample `JSON.parse` oracle: fails on the empty text (as `JSON.parse`
does) and yields `pvSampleBody` otherwise. -/
def pvSampleParse : String → Option JsVal :=
  fun s => if s = "" then none else some pvSampleBody

/-- A question value with a defined `text` and a defined `type` (the
lookup yields neither a missing key nor `undefined`). -/
def qDefined (q : JsVal) : Prop :=
  getPropP q "text" ≠ JsVal.undef ∧ getPropP q "type" ≠ JsVal.undef

/-- All questions of a section value have defined `text` and `type`. -/
def sectionQsOk (s : JsVal) : Prop :=
  ∃ qs, getPropP s "questions" = .arr qs ∧ ∀ q ∈ qs, qDefined q

/-- All questions of a plan value have defined `text` and `type`. -/
def planQsOk (p : JsVal) : Prop :=
  ∃ ss, getPropP p "sections" = .arr ss ∧ ∀ s ∈ ss, sectionQsOk s

/-- Drop the trailing whitespace run of a character list (the part the
first `\s*` of the combined pattern absorbs before the slash). -/
def dropTrailingWs (cs : List Char) : List Char :=
  (cs.reverse.dropWhile jsWsChar).reverse

/-! ## General lemmas -/

theorem truthy_ne_undef {a : JsVal} (h : truthy a = true) : a ≠ .undef := by
  intro he; subst he; simp [truthy] at h

theorem jsOr_of_truthy {a : JsVal} (b : JsVal) (h : truthy a = true) : jsOr a b = a := by
  simp [jsOr, h]

theorem jsOr_of_not_truthy {a : JsVal} (b : JsVal) (h : truthy a = false) :
    jsOr a b = b := by
  simp [jsOr, h]

theorem jsOr_ne_undef {a b : JsVal} (hb : b ≠ .undef) : jsOr a b ≠ .undef := by
  unfold jsOr; split
  · exact truthy_ne_undef (by assumption)
  · exact hb

theorem jsOr_str_ne_undef (a : JsVal) (s : String) : jsOr a (.str s) ≠ .undef :=
  jsOr_ne_undef (by intro h; cases h)

theorem exMapM_ok_all {f : JsVal → Except Unit JsVal} {P : JsVal → Prop}
    (hf : ∀ x y, f x = .ok y → P y) :
    ∀ {xs ys}, exMapM f xs = .ok ys → ∀ y ∈ ys, P y := by
  intro xs
  induction xs with
  | nil =>
    intro ys h
    simp only [exMapM] at h
    cases h
    simp
  | cons x xs ih =>
    intro ys h
    simp only [exMapM, bind, Except.bind] at h
    cases hx : f x with
    | error e => rw [hx] at h; exact absurd h (by simp)
    | ok y =>
      rw [hx] at h
      cases hxs : exMapM f xs with
      | error e => rw [hxs] at h; exact absurd h (by simp)
      | ok ys2 =>
        rw [hxs] at h
        cases h
        intro z hz
        rcases List.mem_cons.mp hz with hz | hz
        · exact hz ▸ hf x y hx
        · exact ih hxs z hz

theorem exMapIdxM_ok_all {f : Nat → JsVal → Except Unit JsVal} {P : JsVal → Prop}
    (hf : ∀ i x y, f i x = .ok y → P y) :
    ∀ {i xs ys}, exMapIdxM f i xs = .ok ys → ∀ y ∈ ys, P y := by
  intro i xs
  induction xs generalizing i with
  | nil =>
    intro ys h
    simp only [exMapIdxM] at h
    cases h
    simp
  | cons x xs ih =>
    intro ys h
    simp only [exMapIdxM, bind, Except.bind] at h
    cases hx : f i x with
    | error e => rw [hx] at h; exact absurd h (by simp)
    | ok y =>
      rw [hx] at h
      cases hxs : exMapIdxM f (i + 1) xs with
      | error e => rw [hxs] at h; exact absurd h (by simp)
      | ok ys2 =>
        rw [hxs] at h
        cases h
        intro z hz
        rcases List.mem_cons.mp hz with hz | hz
        · exact hz ▸ hf i x y hx
        · exact ih hxs z hz

theorem jsMapM_ok_all {f : JsVal → Except Unit JsVal} {P : JsVal → Prop}
    (hf : ∀ x y, f x = .ok y → P y) {v : JsVal} {ys : List JsVal}
    (h : jsMapM f v = .ok ys) : ∀ y ∈ ys, P y := by
  cases v <;> simp only [jsMapM] at h <;> first
    | exact absurd h (by simp)
    | exact exMapM_ok_all hf h

/-- Shared helper: an object whose `sections` field is an array is
returned unchanged by `extractPlanCandidate` (first guard of the chain). -/
theorem extract_sections_ok {fs : List (String × JsVal)} {xs : List JsVal}
    (h : fieldLookup "sections" fs = some (.arr xs)) :
    extractPlanCandidate (.obj fs) = .ok (.obj fs) := by
  unfold extractPlanCandidate
  simp [truthy, jsTypeof, getPropP, jsField, h, isArr]

/-- C1: for every input value that is an object whose `sections` field is
an array (an already-canonical plan), `extractPlanCandidate` returns
exactly its input, unchanged. -/
theorem extractPlanCandidate_canonical_passthrough
    (fs : List (String × JsVal)) (xs : List JsVal)
    (h : jsField (.obj fs) "sections" = some (.arr xs)) :
    extractPlanCandidate (.obj fs) = .ok (.obj fs) :=
  extract_sections_ok (by simpa [jsField] using h)

theorem extractPlanCandidate_canonical_passthrough_witness :
    jsField (.obj [("sections", .arr [])]) "sections" = some (.arr ([] : List JsVal)) ∧
    extractPlanCandidate (.obj [("sections", .arr [])]) = .ok (.obj [("sections", .arr [])]) :=
  ⟨by decide, extractPlanCandidate_canonical_passthrough _ [] (by decide)⟩

/-- C2 counterexample: on the structurally-odd object
`{rendered_pages: [null]}` the converter throws a `TypeError`
(`page.name` is read on the `null` page), so it does not terminate
without an exception on every input. -/
theorem extractPlanCandidate_throws_on_null_page :
    extractPlanCandidate (.obj [("rendered_pages", .arr [.null])]) = .error () := by decide

/-- C2 (amended): every input that is `null` or not an object (including
`undefined` and all primitives) is returned unchanged; the converter is
total, but structurally-odd objects can make it throw a `TypeError`
instead of yielding a best-effort plan. -/
theorem extractPlanCandidate_primitive_passthrough
    (v : JsVal) (h : v = JsVal.null ∨ jsTypeof v ≠ "object") :
    extractPlanCandidate v = .ok v := by
  unfold extractPlanCandidate
  rcases h with h | h
  · subst h; simp [truthy]
  · simp [h]

theorem extractPlanCandidate_primitive_passthrough_witness :
    ((JsVal.str "hi") = JsVal.null ∨ jsTypeof (JsVal.str "hi") ≠ "object") ∧
    extractPlanCandidate (.str "hi") = .ok (.str "hi") :=
  ⟨by decide, extractPlanCandidate_primitive_passthrough _ (by decide)⟩

theorem getPropP_ne_undef_obj {w : JsVal} {k : String}
    (h : getPropP w k ≠ .undef) : ∃ gs, w = .obj gs := by
  cases w <;> simp [getPropP, jsField] at h ⊢

/-- The spec's enumeration of reason codes matches the source's guard:
`isPromptValidationError 422 v` holds exactly on claim-valid bodies. -/
theorem isPromptValidationError_iff (v : JsVal) :
    isPromptValidationError 422 v = true ↔ claimPromptDetailOk v := by
  unfold isPromptValidationError
  rw [if_neg (by simp)]
  constructor
  · intro h
    by_cases h2 : ¬ truthy v ∨ jsTypeof v ≠ "object"
    · rw [if_pos h2] at h; cases h
    rw [if_neg h2] at h
    by_cases h3 : ¬ truthy (getPropP v "detail")
        ∨ jsTypeof (getPropP v "detail") ≠ "object"
    · rw [if_pos h3] at h; cases h
    rw [if_neg h3] at h
    by_cases h4 : ¬ truthy (getPropP (getPropP v "detail") "reason_code")
        ∨ getPropP (getPropP v "detail") "reason_code" ∉ validReasonCodes.map JsVal.str
    · rw [if_pos h4] at h; cases h
    rw [if_neg h4] at h
    by_cases h5 : ¬ truthy (getPropP (getPropP v "detail") "message")
        ∨ jsTypeof (getPropP (getPropP v "detail") "message") ≠ "string"
    · rw [if_pos h5] at h; cases h
    rw [if_neg h5] at h
    push_neg at h4 h5
    refine ⟨?_, ?_, ?_⟩
    · have hmem := h4.2
      rw [List.mem_map] at hmem
      obtain ⟨rc, hrcmem, hrceq⟩ := hmem
      exact ⟨rc, hrcmem, hrceq.symm⟩
    · cases hmsg : getPropP (getPropP v "detail") "message" with
      | str m =>
        refine ⟨m, rfl, ?_⟩
        have := h5.1
        rw [hmsg] at this
        simpa [truthy] using this
      | undef => rw [hmsg] at h5; simp [jsTypeof] at h5
      | null => rw [hmsg] at h5; simp [jsTypeof] at h5
      | bool b => rw [hmsg] at h5; simp [jsTypeof] at h5
      | num n => rw [hmsg] at h5; simp [jsTypeof] at h5
      | arr xs => rw [hmsg] at h5; simp [jsTypeof] at h5
      | obj gs => rw [hmsg] at h5; simp [jsTypeof] at h5
    · by_cases hn : getPropP (getPropP v "detail") "suggested_prompt" = JsVal.null
      · exact Or.inl hn
      by_cases hu : getPropP (getPropP v "detail") "suggested_prompt" = JsVal.undef
      · exact Or.inr (Or.inl hu)
      refine Or.inr (Or.inr ?_)
      by_cases h6 : getPropP (getPropP v "detail") "suggested_prompt" ≠ JsVal.null
          ∧ getPropP (getPropP v "detail") "suggested_prompt" ≠ JsVal.undef
          ∧ jsTypeof (getPropP (getPropP v "detail") "suggested_prompt") ≠ "string"
      · rw [if_pos h6] at h; cases h
      · have hsty : jsTypeof (getPropP (getPropP v "detail") "suggested_prompt") = "string" := by
          by_contra hc
          exact h6 ⟨hn, hu, hc⟩
        cases hsp : getPropP (getPropP v "detail") "suggested_prompt" with
        | str sp => exact ⟨sp, rfl⟩
        | undef => rw [hsp] at hsty; simp [jsTypeof] at hsty
        | null => rw [hsp] at hsty; simp [jsTypeof] at hsty
        | bool b => rw [hsp] at hsty; simp [jsTypeof] at hsty
        | num n => rw [hsp] at hsty; simp [jsTypeof] at hsty
        | arr xs => rw [hsp] at hsty; simp [jsTypeof] at hsty
        | obj gs => rw [hsp] at hsty; simp [jsTypeof] at hsty
  · intro h
    obtain ⟨⟨rc, hrcmem, hrc⟩, ⟨m, hm, hmne⟩, hsp⟩ := h
    obtain ⟨ds, hds⟩ := getPropP_ne_undef_obj
      (w := getPropP v "detail") (k := "reason_code") (by rw [hrc]; rintro ⟨⟩)
    obtain ⟨fs, hfs⟩ := getPropP_ne_undef_obj (w := v) (k := "detail")
      (by rw [hds]; rintro ⟨⟩)
    have hrcne : rc ≠ "" := by
      simp only [validReasonCodes, List.mem_cons, List.not_mem_nil, or_false] at hrcmem
      rcases hrcmem with h | h | h | h | h | h <;> subst h <;> decide
    rw [if_neg (by rw [hfs]; simp [truthy, jsTypeof])]
    rw [if_neg (by rw [hds]; simp [truthy, jsTypeof])]
    rw [if_neg (by
      rw [hrc]
      push_neg
      refine ⟨by simp [truthy, hrcne], ?_⟩
      rw [List.mem_map]
      exact ⟨rc, hrcmem, rfl⟩)]
    rw [if_neg (by rw [hm]; simp [truthy, jsTypeof, hmne])]
    rw [if_neg (by
      rcases hsp with hsp | hsp | ⟨sp, hsp⟩ <;> rw [hsp] <;> simp [jsTypeof])]

/-- C5: the classifier throws a `PromptValidationError` carrying the
payload's `detail` fields exactly when the status is 422 and the body
parses to a claim-valid payload (reason code in the fixed enumeration,
non-empty string message, suggested prompt a string or null if present);
on every other input it returns `false` (generic) without throwing.
`parse` is the `JSON.parse` oracle, which fails on the empty text. -/
theorem handlePromptValidationError_classifies (status : Int) (t : String)
    (parse : String → Option JsVal) (hparse : parse "" = none) :
    (∀ v, status = 422 → parse t = some v → claimPromptDetailOk v →
      handlePromptValidationError status t parse =
        .error ⟨getPropP (getPropP v "detail") "message",
                getPropP (getPropP v "detail") "reason_code",
                getPropP (getPropP v "detail") "suggested_prompt"⟩) ∧
    ((¬ (status = 422 ∧ ∃ v, parse t = some v ∧ claimPromptDetailOk v)) →
      handlePromptValidationError status t parse = .ok false) := by
  constructor
  · intro v hs hv hok
    subst hs
    have ht : t ≠ "" := by
      intro he
      rw [he, hparse] at hv
      cases hv
    unfold handlePromptValidationError
    rw [if_neg (by simp), if_pos ht, hv]
    simp only [Option.elim]
    rw [if_neg (by simp [(isPromptValidationError_iff v).mpr hok])]
  · intro hno
    unfold handlePromptValidationError
    by_cases hs : status = 422
    · subst hs
      rw [if_neg (by simp)]
      push_neg at hno
      have hno' := hno rfl
      by_cases ht : t ≠ ""
      · rw [if_pos ht]
        cases hv : parse t with
        | none => rfl
        | some v =>
          simp only [Option.elim]
          rw [if_pos (by simpa [isPromptValidationError_iff v] using hno' v hv)]
      · rw [if_neg ht]
        simp only [Option.elim]
        rw [if_pos (by decide)]
    · rw [if_pos hs]

theorem handlePromptValidationError_classifies_witness :
    handlePromptValidationError 422 "body" pvSampleParse =
      .error ⟨.str "Too short", .str "too_short", .str "Try more"⟩ := by
  have h := (handlePromptValidationError_classifies 422 "body" pvSampleParse
    (by decide)).1 pvSampleBody rfl (by decide)
    ⟨⟨"too_short", by decide, by decide⟩, ⟨"Too short", by decide, by decide⟩,
      Or.inr (Or.inr ⟨"Try more", by decide⟩)⟩
  simpa [pvSampleBody, getPropP, jsField, fieldLookup] using h

/-- C10: `handlePromptValidationError` never returns `true`: on every
input it either returns `false` or throws a `PromptValidationError`
whose fields are copied from the parsed payload's `detail`, so the
documented true-returning branch is unreachable. -/
theorem handlePromptValidationError_never_true (status : Int) (t : String)
    (parse : String → Option JsVal) :
    handlePromptValidationError status t parse ≠ .ok true ∧
    (∀ e, handlePromptValidationError status t parse = .error e →
      ∃ v, (if t ≠ "" then parse t else some .null) = some v ∧
        e = ⟨getPropP (getPropP v "detail") "message",
             getPropP (getPropP v "detail") "reason_code",
             getPropP (getPropP v "detail") "suggested_prompt"⟩) := by
  unfold handlePromptValidationError
  by_cases h1 : status ≠ 422
  · rw [if_pos h1]
    exact ⟨by simp, fun e he => by cases he⟩
  · rw [if_neg h1]
    cases hv : (if t ≠ "" then parse t else some JsVal.null) with
    | none =>
      exact ⟨by simp, fun e he => by cases he⟩
    | some v =>
      simp only [Option.elim]
      by_cases h2 : ¬ isPromptValidationError status v
      · rw [if_pos h2]
        exact ⟨by simp, fun e he => by cases he⟩
      · rw [if_neg h2]
        exact ⟨by simp, fun e he => by cases he; exact ⟨v, rfl, rfl⟩⟩

theorem handlePromptValidationError_never_true_witness :
    ∃ v, (if ("body" : String) ≠ "" then pvSampleParse "body" else some JsVal.null) = some v ∧
      (⟨.str "Too short", .str "too_short", .str "Try more"⟩ : PromptValidationError) =
        ⟨getPropP (getPropP v "detail") "message",
         getPropP (getPropP v "detail") "reason_code",
         getPropP (getPropP v "detail") "suggested_prompt"⟩ :=
  (handlePromptValidationError_never_true 422 "body" pvSampleParse).2
    ⟨.str "Too short", .str "too_short", .str "Try more"⟩ (by decide)

theorem exBind_ok {a b : Type} {x : Except Unit a} {f : a → Except Unit b} {r : b}
    (h : x >>= f = .ok r) : ∃ v, x = .ok v ∧ f v = .ok r := by
  cases x with
  | error e => simp [bind, Except.bind] at h
  | ok v => exact ⟨v, rfl, by simpa [bind, Except.bind] using h⟩

/-- C3 counterexample: with `settings.props.options` an empty array and
`props.options` non-empty, the extractor returns the empty list, not the
options from `props.options` — an empty array is truthy, so `||` lets it
shadow the legacy path. -/
theorem extractOptions_empty_settings_shadows_props :
    extractOptions (.obj [("settings", .obj [("props", .obj [("options", .arr [])])]),
      ("props", .obj [("options", .arr [.obj [("label", .str "Y")]])])]) = .ok [] ∧
    extractOptions (.obj [("settings", .obj [("props", .obj [("options", .arr [])])]),
      ("props", .obj [("options", .arr [.obj [("label", .str "Y")]])])]) ≠ .ok ["Y"] := by
  decide

/-- C3 (amended): precedence is by truthiness, not by non-emptiness:
`settings.props.options` is used whenever truthy (including when it is an
empty array), otherwise `props.options`; only a non-empty array
contributes options, and otherwise the result is the empty array, never
undefined. -/
theorem extractOptions_truthiness_precedence (sOpt pOpt : JsVal) :
    (truthy sOpt = true →
      extractOptions (.obj [("settings", .obj [("props", .obj [("options", sOpt)])]),
        ("props", .obj [("options", pOpt)])]) =
      extractOptions (.obj [("settings", .obj [("props", .obj [("options", sOpt)])]),
        ("props", .obj [])])) ∧
    (truthy sOpt = false →
      extractOptions (.obj [("settings", .obj [("props", .obj [("options", sOpt)])]),
        ("props", .obj [("options", pOpt)])]) =
      extractOptions (.obj [("settings", .obj []),
        ("props", .obj [("options", pOpt)])])) ∧
    (extractOptions (.obj [("settings", .obj [("props", .obj [("options", .arr [])])]),
      ("props", .obj [("options", pOpt)])]) = .ok []) ∧
    (extractOptions (.obj [("settings", .obj []), ("props", .obj [])]) = .ok []) := by
  have mk1 : ∀ sv pv : JsVal,
      extractOptions (.obj [("settings", .obj [("props", .obj [("options", sv)])]),
        ("props", .obj [("options", pv)])]) =
      (match jsOr sv pv with
       | .arr os => if os.length > 0 then pure (os.foldl extractOptionStep []) else pure []
       | _ => pure []) := fun _ _ => rfl
  have mk2 : ∀ sv : JsVal,
      extractOptions (.obj [("settings", .obj [("props", .obj [("options", sv)])]),
        ("props", .obj [])]) =
      (match jsOr sv .undef with
       | .arr os => if os.length > 0 then pure (os.foldl extractOptionStep []) else pure []
       | _ => pure []) := fun _ => rfl
  have mk3 : ∀ pv : JsVal,
      extractOptions (.obj [("settings", .obj []),
        ("props", .obj [("options", pv)])]) =
      (match jsOr JsVal.undef pv with
       | .arr os => if os.length > 0 then pure (os.foldl extractOptionStep []) else pure []
       | _ => pure []) := fun _ => rfl
  refine ⟨?_, ?_, ?_, ?_⟩
  · intro h
    rw [mk1, mk2, jsOr_of_truthy _ h, jsOr_of_truthy _ h]
  · intro h
    rw [mk1, mk3, jsOr_of_not_truthy _ h, jsOr_of_not_truthy _ (by decide)]
  · rw [mk1, jsOr_of_truthy _ (by decide)]
    rfl
  · decide

theorem extractOptions_truthiness_precedence_witness :
    truthy (JsVal.arr []) = true ∧
    extractOptions (.obj [("settings", .obj [("props", .obj [("options", .arr [])])]),
      ("props", .obj [("options", .arr [.obj [("label", .str "Y")]])])]) =
    extractOptions (.obj [("settings", .obj [("props", .obj [("options", .arr [])])]),
      ("props", .obj [])]) :=
  ⟨by decide,
    (extractOptions_truthiness_precedence (.arr [])
      (.arr [.obj [("label", .str "Y")]])).1 (by decide)⟩

/-- C4 counterexample: a control of the choice kind `radio` carrying no
option list is converted to a question whose `type` is `radio` but whose
`options` field is `undefined` (absent), not a present empty array. -/
theorem extractPlanCandidate_radio_options_absent :
    extractPlanCandidate (.obj [("survey", .obj [("pages", .arr [.obj [("controls",
        .arr [.obj [("type", .str "radio")]])]])])]) =
      .ok (.obj [("sections", .arr [.obj [("title", .str "Page 1"),
        ("questions", .arr [.obj [("text", .str ""), ("type", .str "radio"),
          ("options", .undef), ("required", .bool false), ("spec_id", .str ""),
          ("scale", .undef), ("validation", .undef), ("skip_logic", .undef)]])]]),
        ("suggestedName", .str "")]) := by
  decide

/-- C4 (amended): in every question the `survey.pages` branch emits, the
`options` field is present exactly when at least one option was extracted
(a non-empty array); it is `undefined` otherwise — irrespective of the
question's `type`, and never a present empty array. -/
theorem convertSurveyControl_options_iff_nonempty (c q : JsVal)
    (h : convertSurveyControl c = .ok q) :
    getPropP q "options" = .undef ∨
      ∃ xs, getPropP q "options" = .arr xs ∧ xs ≠ [] := by
  unfold convertSurveyControl at h
  obtain ⟨lab, h1, h⟩ := exBind_ok h
  obtain ⟨settings, h2, h⟩ := exBind_ok h
  obtain ⟨props, h3, h⟩ := exBind_ok h
  obtain ⟨options, h4, h⟩ := exBind_ok h
  obtain ⟨ty, h5, h⟩ := exBind_ok h
  obtain ⟨sk, h6, h⟩ := exBind_ok h
  obtain ⟨cid, h7, h⟩ := exBind_ok h
  obtain ⟨cname, h8, h⟩ := exBind_ok h
  simp only [pure, Except.pure, Except.ok.injEq] at h
  subst h
  by_cases hlen : options.length > 0
  · refine Or.inr ⟨options, ?_, ?_⟩
    · simp [getPropP, jsField, fieldLookup, hlen]
    · intro he
      rw [he] at hlen
      simp at hlen
  · left
    simp [getPropP, jsField, fieldLookup, hlen]

theorem convertSurveyControl_options_iff_nonempty_witness :
    getPropP (.obj [("text", .str ""), ("type", .str "radio"),
      ("options", .undef), ("required", .bool false), ("spec_id", .str ""),
      ("scale", .undef), ("validation", .undef), ("skip_logic", .undef)]) "options"
        = JsVal.undef ∨
    ∃ xs, getPropP (.obj [("text", .str ""), ("type", .str "radio"),
      ("options", .undef), ("required", .bool false), ("spec_id", .str ""),
      ("scale", .undef), ("validation", .undef), ("skip_logic", .undef)]) "options"
        = JsVal.arr xs ∧ xs ≠ [] :=
  convertSurveyControl_options_iff_nonempty (.obj [("type", .str "radio")]) _ (by decide)

theorem convertSurveyControl_qDefined :
    ∀ c q, convertSurveyControl c = .ok q → qDefined q := by
  intro c q h
  unfold convertSurveyControl at h
  obtain ⟨lab, h1, h⟩ := exBind_ok h
  obtain ⟨settings, h2, h⟩ := exBind_ok h
  obtain ⟨props, h3, h⟩ := exBind_ok h
  obtain ⟨options, h4, h⟩ := exBind_ok h
  obtain ⟨ty, h5, h⟩ := exBind_ok h
  obtain ⟨sk, h6, h⟩ := exBind_ok h
  obtain ⟨cid, h7, h⟩ := exBind_ok h
  obtain ⟨cname, h8, h⟩ := exBind_ok h
  simp only [pure, Except.pure, Except.ok.injEq] at h
  subst h
  constructor
  · show (match jsOr lab (.obj []) with
      | .str s => JsVal.str s
      | _ =>
        if truthy (jsOr (getPropP (jsOr lab (.obj [])) "en") (.str "")) = true
            ∧ truthy (jsOr (getPropP (jsOr lab (.obj [])) "ar") (.str "")) = true then
          JsVal.obj [("en", jsOr (getPropP (jsOr lab (.obj [])) "en") (.str "")),
            ("ar", jsOr (getPropP (jsOr lab (.obj [])) "ar") (.str ""))]
        else
          jsOr (jsOr (getPropP (jsOr lab (.obj [])) "en") (.str ""))
            (jsOr (jsOr (getPropP (jsOr lab (.obj [])) "ar") (.str ""))
              (jsOr (headOrUndef (objValues (jsOr lab (.obj [])))) (.str "")))) ≠ .undef
    split
    · intro hh; cases hh
    · split
      · intro hh; cases hh
      · exact jsOr_ne_undef (jsOr_ne_undef (jsOr_str_ne_undef _ _))
  · show (if jsOr ty (.str "text") = JsVal.str "select" then JsVal.str "dropdown_list"
      else jsOr ty (.str "text")) ≠ .undef
    split
    · intro hh; cases hh
    · exact jsOr_str_ne_undef _ _

theorem convertRenderedQ_qDefined :
    ∀ x q, convertRenderedQ x = .ok q → qDefined q := by
  intro x q h
  unfold convertRenderedQ at h
  obtain ⟨a1, h1, h⟩ := exBind_ok h
  obtain ⟨a2, h2, h⟩ := exBind_ok h
  obtain ⟨a3, h3, h⟩ := exBind_ok h
  obtain ⟨a4, h4, h⟩ := exBind_ok h
  obtain ⟨a5, h5, h⟩ := exBind_ok h
  obtain ⟨a6, h6, h⟩ := exBind_ok h
  obtain ⟨a7, h7, h⟩ := exBind_ok h
  obtain ⟨a8, h8, h⟩ := exBind_ok h
  obtain ⟨a9, h9, h⟩ := exBind_ok h
  obtain ⟨a10, h10, h⟩ := exBind_ok h
  simp only [pure, Except.pure, Except.ok.injEq] at h
  subst h
  exact ⟨jsOr_ne_undef (jsOr_str_ne_undef _ _), jsOr_ne_undef (jsOr_str_ne_undef _ _)⟩

theorem convertGQQuestion_qDefined :
    ∀ x q, convertGQQuestion x = .ok q → qDefined q := by
  intro x q h
  unfold convertGQQuestion at h
  obtain ⟨a1, h1, h⟩ := exBind_ok h
  obtain ⟨a2, h2, h⟩ := exBind_ok h
  obtain ⟨a3, h3, h⟩ := exBind_ok h
  obtain ⟨a4, h4, h⟩ := exBind_ok h
  obtain ⟨a5, h5, h⟩ := exBind_ok h
  obtain ⟨a6, h6, h⟩ := exBind_ok h
  obtain ⟨a7, h7, h⟩ := exBind_ok h
  obtain ⟨a8, h8, h⟩ := exBind_ok h
  obtain ⟨a9, h9, h⟩ := exBind_ok h
  obtain ⟨a10, h10, h⟩ := exBind_ok h
  obtain ⟨a11, h11, h⟩ := exBind_ok h
  simp only [pure, Except.pure, Except.ok.injEq] at h
  subst h
  exact ⟨jsOr_ne_undef (jsOr_ne_undef (jsOr_str_ne_undef _ _)),
    jsOr_ne_undef (jsOr_str_ne_undef _ _)⟩

theorem convertQuestionSpec_qDefined :
    ∀ x q, convertQuestionSpec x = .ok q → qDefined q := by
  intro x q h
  unfold convertQuestionSpec at h
  obtain ⟨a1, h1, h⟩ := exBind_ok h
  obtain ⟨a2, h2, h⟩ := exBind_ok h
  obtain ⟨a3, h3, h⟩ := exBind_ok h
  obtain ⟨a4, h4, h⟩ := exBind_ok h
  obtain ⟨a5, h5, h⟩ := exBind_ok h
  obtain ⟨a6, h6, h⟩ := exBind_ok h
  obtain ⟨a7, h7, h⟩ := exBind_ok h
  obtain ⟨a8, h8, h⟩ := exBind_ok h
  obtain ⟨a9, h9, h⟩ := exBind_ok h
  obtain ⟨a10, h10, h⟩ := exBind_ok h
  obtain ⟨a11, h11, h⟩ := exBind_ok h
  simp only [pure, Except.pure, Except.ok.injEq] at h
  subst h
  exact ⟨jsOr_ne_undef (jsOr_ne_undef (jsOr_str_ne_undef _ _)),
    jsOr_ne_undef (jsOr_str_ne_undef _ _)⟩

theorem convertSurveyPage_sectionOk :
    ∀ i page s, convertSurveyPage i page = .ok s → sectionQsOk s := by
  intro i page s h
  unfold convertSurveyPage at h
  obtain ⟨ctr, h1, h⟩ := exBind_ok h
  obtain ⟨questions, h2, h⟩ := exBind_ok h
  obtain ⟨pn, h3, h⟩ := exBind_ok h
  obtain ⟨title, h4, h⟩ := exBind_ok h
  simp only [pure, Except.pure, Except.ok.injEq] at h
  subst h
  exact ⟨questions, by simp [getPropP, jsField, fieldLookup],
    fun q hq => jsMapM_ok_all convertSurveyControl_qDefined h2 q hq⟩

theorem convertRenderedPage_sectionOk :
    ∀ page s, convertRenderedPage page = .ok s → sectionQsOk s := by
  intro page s h
  unfold convertRenderedPage at h
  obtain ⟨pn, h1, h⟩ := exBind_ok h
  obtain ⟨pnum, h2, h⟩ := exBind_ok h
  obtain ⟨pq, h3, h⟩ := exBind_ok h
  obtain ⟨questions, h4, h⟩ := exBind_ok h
  simp only [pure, Except.pure, Except.ok.injEq] at h
  subst h
  exact ⟨questions, by simp [getPropP, jsField, fieldLookup],
    fun q hq => jsMapM_ok_all convertRenderedQ_qDefined h4 q hq⟩

theorem convertGQPage_sectionOk :
    ∀ i page s, convertGQPage i page = .ok s → sectionQsOk s := by
  intro i page s h
  unfold convertGQPage at h
  obtain ⟨pn, h1, h⟩ := exBind_ok h
  obtain ⟨pt, h2, h⟩ := exBind_ok h
  obtain ⟨qsV, h3, h⟩ := exBind_ok h
  obtain ⟨questions, h4, h⟩ := exBind_ok h
  simp only [pure, Except.pure, Except.ok.injEq] at h
  subst h
  exact ⟨questions, by simp [getPropP, jsField, fieldLookup],
    fun q hq => exMapM_ok_all convertGQQuestion_qDefined h4 q hq⟩

theorem convertPlanPage_sectionOk :
    ∀ lang i page s, convertPlanPage lang i page = .ok s → sectionQsOk s := by
  intro lang i page s h
  unfold convertPlanPage at h
  obtain ⟨sb, h1, h⟩ := exBind_ok h
  by_cases hsb : truthy sb = true
  · rw [if_pos hsb] at h
    simp only [pure, Except.pure, Except.ok.injEq] at h
    subst h
    refine ⟨(List.range (jsToLength (jsOr (getPropP sb "question_count") (.num 0)))).map
      (fun qIdx => JsVal.obj [("text", .str ("Question " ++ toString (qIdx + 1) ++
          " (to be generated from section brief)")),
        ("type", .str "text"), ("section_brief", sb)]),
      by simp [getPropP, jsField, fieldLookup], ?_⟩
    intro q hq
    rw [List.mem_map] at hq
    obtain ⟨n, _, hn⟩ := hq
    subst hn
    unfold qDefined
    refine ⟨?_, ?_⟩ <;> (intro hh; simp [getPropP, jsField, fieldLookup] at hh)
  · rw [if_neg hsb] at h
    obtain ⟨qs, h2, h⟩ := exBind_ok h
    split at h
    · rename_i specs
      split_ifs at h with hlen
      · obtain ⟨questions, h3, h⟩ := exBind_ok h
        simp only [pure, Except.pure, Except.ok.injEq] at h
        subst h
        exact ⟨questions, by simp [getPropP, jsField, fieldLookup],
          fun q hq => exMapM_ok_all convertQuestionSpec_qDefined h3 q hq⟩
      · simp only [pure, Except.pure, Except.ok.injEq] at h
        subst h
        exact ⟨[], by simp [getPropP, jsField, fieldLookup], by simp⟩
    · simp only [pure, Except.pure, Except.ok.injEq] at h
      subst h
      exact ⟨[], by simp [getPropP, jsField, fieldLookup], by simp⟩

theorem convertSurveyBranch_planOk :
    ∀ r p, convertSurveyBranch r = .ok p → planQsOk p := by
  intro r p h
  unfold convertSurveyBranch at h
  obtain ⟨sections, h1, h⟩ := exBind_ok h
  obtain ⟨st, h2, h⟩ := exBind_ok h
  obtain ⟨sugg, h3, h⟩ := exBind_ok h
  simp only [pure, Except.pure, Except.ok.injEq] at h
  subst h
  refine ⟨sections, by simp [getPropP, jsField, fieldLookup], ?_⟩
  intro s hs
  split at h1
  · exact exMapIdxM_ok_all (fun i x y hy => convertSurveyPage_sectionOk i x y hy) h1 s hs
  · exact absurd h1 (by simp)

theorem convertRenderedPages_planOk :
    ∀ r p, convertRenderedPages r = .ok p → planQsOk p := by
  intro r p h
  unfold convertRenderedPages at h
  obtain ⟨sections, h1, h⟩ := exBind_ok h
  simp only [pure, Except.pure, Except.ok.injEq] at h
  subst h
  refine ⟨sections, by simp [getPropP, jsField, fieldLookup], ?_⟩
  intro s hs
  split at h1
  · exact exMapM_ok_all (fun x y hy => convertRenderedPage_sectionOk x y hy) h1 s hs
  · exact absurd h1 (by simp)

theorem convertGQBranchA_planOk :
    ∀ r gq p, convertGQBranchA r gq = .ok p → planQsOk p := by
  intro r gq p h
  unfold convertGQBranchA at h
  obtain ⟨sections, h1, h⟩ := exBind_ok h
  simp only [pure, Except.pure, Except.ok.injEq] at h
  subst h
  refine ⟨sections, by simp [getPropP, jsField, fieldLookup], ?_⟩
  intro s hs
  split at h1
  · exact exMapIdxM_ok_all (fun i x y hy => convertGQPage_sectionOk i x y hy) h1 s hs
  · exact absurd h1 (by simp)

theorem convertGQBranchB_planOk :
    ∀ r pages p, convertGQBranchB r pages = .ok p → planQsOk p := by
  intro r pages p h
  unfold convertGQBranchB at h
  obtain ⟨sections, h1, h⟩ := exBind_ok h
  simp only [pure, Except.pure, Except.ok.injEq] at h
  subst h
  exact ⟨sections, by simp [getPropP, jsField, fieldLookup],
    fun s hs => exMapIdxM_ok_all (fun i x y hy => convertGQPage_sectionOk i x y hy) h1 s hs⟩

theorem convertPlanBranch_planOk :
    ∀ r p, convertPlanBranch r = .ok p → planQsOk p := by
  intro r p h
  unfold convertPlanBranch at h
  obtain ⟨sections, h1, h⟩ := exBind_ok h
  simp only [pure, Except.pure, Except.ok.injEq] at h
  subst h
  refine ⟨sections, by simp [getPropP, jsField, fieldLookup], ?_⟩
  intro s hs
  split at h1
  · exact exMapIdxM_ok_all (fun i x y hy => convertPlanPage_sectionOk _ i x y hy) h1 s hs
  · exact absurd h1 (by simp)

/-- C7 counterexample: for the bare-`questions[]` shape the converter
wraps the questions unchanged, so a question with no `text`/`type` keys
reaches the output with both undefined. -/
theorem extractPlanCandidate_bare_questions_text_undefined :
    extractPlanCandidate (.obj [("questions", .arr [.obj [("foo", .num 1)]])]) =
      .ok (.obj [("sections", .arr [.obj [("title", .str "Survey Questions"),
        ("questions", .arr [.obj [("foo", .num 1)]])]]), ("suggestedName", .undef)]) ∧
    getPropP (.obj [("foo", .num 1)]) "text" = .undef ∧
    getPropP (.obj [("foo", .num 1)]) "type" = .undef := by
  decide

/-- C7 (amended): for the five converting upstream shapes —
`survey.pages`, `rendered_pages`, the two `generated_questions` forms,
and `plan.pages` (`question_specs` or `section_brief`) — every question
of a successfully produced plan has a defined `text` and a defined
`type`; the bare-`questions[]` fallback passes questions through
unchanged and gives no such guarantee. -/
theorem converted_shapes_questions_defined :
    (∀ r p, convertSurveyBranch r = .ok p → planQsOk p) ∧
    (∀ r p, convertRenderedPages r = .ok p → planQsOk p) ∧
    (∀ r gq p, convertGQBranchA r gq = .ok p → planQsOk p) ∧
    (∀ r pages p, convertGQBranchB r pages = .ok p → planQsOk p) ∧
    (∀ r p, convertPlanBranch r = .ok p → planQsOk p) :=
  ⟨convertSurveyBranch_planOk, convertRenderedPages_planOk, convertGQBranchA_planOk,
    convertGQBranchB_planOk, convertPlanBranch_planOk⟩

theorem converted_shapes_questions_defined_witness :
    planQsOk (.obj [("sections", .arr [.obj [("title", .str "Page 1"),
      ("questions", .arr [.obj [("text", .str "Age?"), ("type", .str "number"),
        ("options", .undef), ("required", .bool true), ("spec_id", .undef),
        ("scale", .undef), ("validation", .undef), ("skip_logic", .undef)]])]]),
      ("suggestedName", .undef)]) :=
  converted_shapes_questions_defined.2.1
    (.obj [("rendered_pages", .arr [.obj [("name", .str "Page 1"),
      ("questions", .arr [.obj [("question_text", .str "Age?"),
        ("question_type", .str "number"), ("required", .bool true)]])]])])
    _ (by decide)

/-- C8 counterexample: a nested rule whose condition carries the falsy
value `0` in `rightOperand.value` is converted to a flat rule whose
`conditions[0].right_side.value` is the empty string, not `0`: the `||`
defaults drop falsy operand values. -/
theorem convertRule_falsy_value_to_empty_string :
    convertRule (.obj [("id", .str "r1"), ("description", .undef),
      ("if", .obj [("when", .arr [.obj [("leftOperand", .obj [("value", .str "q1")]),
        ("operator", .str "equals"), ("rightOperand", .obj [("value", .num 0)])]]),
      ("then", .arr [.obj [("type", .str "hide_question"),
        ("target", .obj [("ids", .arr [.str "q2"])])]])])]) =
      .ok (.obj [("meta_rule", .obj [("rule_id", .str "r1"),
          ("rule_type", .str "hide_question"),
          ("description_en", .str ""), ("description_ar", .str "")]),
        ("conditions", .arr [.obj [("left_side", .obj [("type", .str "question"),
            ("question_id", .str "q1"), ("data_type", .undef)]),
          ("operator", .str "equals"),
          ("right_side", .obj [("type", .str "value"), ("value", .str ""),
            ("data_type", .undef)])]]),
        ("actions", .arr [.obj [("type", .str "hide_question"),
          ("action_element", .str "q2"), ("message_en", .undef),
          ("message_ar", .undef), ("sequence", .undef), ("action_answer", .undef)]])]) ∧
    JsVal.str "" ≠ JsVal.num 0 := by
  decide

/-- C8 (amended): for truthy field values the nested-rule conversion maps
`leftOperand.value → question_id`, `operator → operator`,
`rightOperand.value → value` (falsy values default to the empty string);
`action_element` is `target.ids` joined with `", "` when it is an array,
else the single truthy `target.ids` value, else the truthy `target.type`;
and `rule_type` is `if.then[0].type` when truthy, else `"unknown"`. -/
theorem convertRule_field_mapping :
    (∀ rid desc lv op rv ty : JsVal, ∀ ids : List JsVal,
      truthy lv = true → truthy op = true → truthy rv = true → truthy ty = true →
      ∃ out, convertRule (.obj [("id", rid), ("description", desc),
          ("if", .obj [("when", .arr [.obj [("leftOperand", .obj [("value", lv)]),
            ("operator", op), ("rightOperand", .obj [("value", rv)])]]),
          ("then", .arr [.obj [("type", ty),
            ("target", .obj [("ids", .arr ids)])]])])]) = .ok out ∧
        getPropP (getPropP (jsIndexZero (getPropP out "conditions")) "left_side")
          "question_id" = lv ∧
        getPropP (jsIndexZero (getPropP out "conditions")) "operator" = op ∧
        getPropP (getPropP (jsIndexZero (getPropP out "conditions")) "right_side")
          "value" = rv ∧
        getPropP (jsIndexZero (getPropP out "actions")) "action_element" =
          .str (jsJoin ", " ids) ∧
        getPropP (getPropP out "meta_rule") "rule_type" = ty) ∧
    (∀ rid desc : JsVal, ∀ ids : List JsVal,
      ∃ out, convertRule (.obj [("id", rid), ("description", desc),
          ("if", .obj [("when", .arr []),
          ("then", .arr [.obj [("target", .obj [("ids", .arr ids)])]])])]) = .ok out ∧
        getPropP (getPropP out "meta_rule") "rule_type" = .str "unknown") ∧
    (∀ rid desc idsv : JsVal, truthy idsv = true → isArr idsv = false →
      ∃ out, convertRule (.obj [("id", rid), ("description", desc),
          ("if", .obj [("when", .arr []),
          ("then", .arr [.obj [("target", .obj [("ids", idsv)])]])])]) = .ok out ∧
        getPropP (jsIndexZero (getPropP out "actions")) "action_element" = idsv) ∧
    (∀ rid desc tyv : JsVal, truthy tyv = true →
      ∃ out, convertRule (.obj [("id", rid), ("description", desc),
          ("if", .obj [("when", .arr []),
          ("then", .arr [.obj [("target", .obj [("type", tyv)])]])])]) = .ok out ∧
        getPropP (jsIndexZero (getPropP out "actions")) "action_element" = tyv) := by
  refine ⟨?_, ?_, ?_, ?_⟩
  · intro rid desc lv op rv ty ids hlv hop hrv hty
    refine ⟨_, rfl, ?_, ?_, ?_, ?_, ?_⟩
    · show jsOr lv (JsVal.str "") = lv
      exact jsOr_of_truthy _ hlv
    · show jsOr op (JsVal.str "") = op
      exact jsOr_of_truthy _ hop
    · show jsOr rv (JsVal.str "") = rv
      exact jsOr_of_truthy _ hrv
    · rfl
    · show jsOr ty (JsVal.str "unknown") = ty
      exact jsOr_of_truthy _ hty
  · intro rid desc ids
    exact ⟨_, rfl, rfl⟩
  · intro rid desc idsv hidv hnarr
    cases idsv with
    | arr xs => simp [isArr] at hnarr
    | undef => simp [truthy] at hidv
    | null => simp [truthy] at hidv
    | bool b => exact ⟨_, rfl, by simp [getPropP, jsField, fieldLookup, jsIndexZero, jsGetOpt, headOrUndef, hidv]⟩
    | num n => exact ⟨_, rfl, by simp [getPropP, jsField, fieldLookup, jsIndexZero, jsGetOpt, headOrUndef, hidv]⟩
    | str s => exact ⟨_, rfl, by simp [getPropP, jsField, fieldLookup, jsIndexZero, jsGetOpt, headOrUndef, hidv]⟩
    | obj fs => exact ⟨_, rfl, by simp [getPropP, jsField, fieldLookup, jsIndexZero, jsGetOpt, headOrUndef, hidv]⟩
  · intro rid desc tyv htyv
    refine ⟨_, rfl, ?_⟩
    show (if truthy JsVal.undef = true then JsVal.undef
      else if truthy tyv = true then tyv else JsVal.str "") = tyv
    rw [if_neg (by decide), if_pos htyv]

theorem convertRule_field_mapping_witness :
    ∃ out, convertRule (.obj [("id", .str "r1"),
        ("description", .obj [("en", .str "d"), ("ar", .str "e")]),
        ("if", .obj [("when", .arr [.obj [("leftOperand", .obj [("value", .str "q1")]),
          ("operator", .str "equals"), ("rightOperand", .obj [("value", .str "yes")])]]),
        ("then", .arr [.obj [("type", .str "hide_question"),
          ("target", .obj [("ids", .arr [.str "q2", .str "q3"])])]])])]) = .ok out ∧
      getPropP (getPropP (jsIndexZero (getPropP out "conditions")) "left_side")
        "question_id" = .str "q1" ∧
      getPropP (jsIndexZero (getPropP out "conditions")) "operator" = .str "equals" ∧
      getPropP (getPropP (jsIndexZero (getPropP out "conditions")) "right_side")
        "value" = .str "yes" ∧
      getPropP (jsIndexZero (getPropP out "actions")) "action_element" =
        .str (jsJoin ", " [.str "q2", .str "q3"]) ∧
      getPropP (getPropP out "meta_rule") "rule_type" = .str "hide_question" :=
  convertRule_field_mapping.1 (.str "r1") (.obj [("en", .str "d"), ("ar", .str "e")])
    (.str "q1") (.str "equals") (.str "yes") (.str "hide_question")
    [.str "q2", .str "q3"] (by decide) (by decide) (by decide) (by decide)

theorem extract_data_wrap {fs : List (String × JsVal)} {xs : List JsVal}
    (h : fieldLookup "sections" fs = some (.arr xs)) :
    extractPlanCandidate (.obj [("data", .obj fs)]) = .ok (.obj fs) := by
  unfold extractPlanCandidate
  simp [getPropP, jsField, fieldLookup, jsGetOpt, truthy, jsTypeof, isArr, h]

theorem extract_result_wrap {fs : List (String × JsVal)} {xs : List JsVal}
    (h : fieldLookup "sections" fs = some (.arr xs)) :
    extractPlanCandidate (.obj [("result", .obj fs)]) = .ok (.obj fs) := by
  unfold extractPlanCandidate
  simp [getPropP, jsField, fieldLookup, jsGetOpt, truthy, jsTypeof, isArr, h]

theorem extract_survey_plan_wrap {fs : List (String × JsVal)} {xs : List JsVal}
    (h : fieldLookup "sections" fs = some (.arr xs)) :
    extractPlanCandidate (.obj [("survey_plan", .obj fs)]) = .ok (.obj fs) := by
  unfold extractPlanCandidate
  simp [getPropP, jsField, fieldLookup, jsGetOpt, truthy, jsTypeof, isArr, h]

theorem extract_surveyPlan_wrap {fs : List (String × JsVal)} {xs : List JsVal}
    (h : fieldLookup "sections" fs = some (.arr xs)) :
    extractPlanCandidate (.obj [("surveyPlan", .obj fs)]) = .ok (.obj fs) := by
  unfold extractPlanCandidate
  simp [getPropP, jsField, fieldLookup, jsGetOpt, truthy, jsTypeof, isArr, h]

/-- C9 counterexample: the `result` wrapper is only unwrapped for
`sections` content; `{result: {rendered_pages: [...]}}` is returned raw
while the unwrapped value converts to a canonical plan, so
`toCanonicalPlan({k: X}) = toCanonicalPlan(X)` fails for a recognized
shape `X` and wrapper key `result`. -/
theorem extractPlanCandidate_result_wrapper_not_unwrapped :
    extractPlanCandidate (.obj [("result", .obj [("rendered_pages", .arr [])])]) =
      .ok (.obj [("result", .obj [("rendered_pages", .arr [])])]) ∧
    extractPlanCandidate (.obj [("rendered_pages", .arr [])]) =
      .ok (.obj [("sections", .arr []), ("suggestedName", .undef)]) ∧
    (JsVal.obj [("result", .obj [("rendered_pages", .arr [])])]) ≠
      (JsVal.obj [("sections", .arr []), ("suggestedName", .undef)]) := by
  decide

/-- C9 (amended): the wrapper unwrapping is partial and runs after
detection rules 1–4: `{data|result|survey_plan|surveyPlan: X}` is
unwrapped when `X` is canonical (`sections` an array), giving the same
result as on `X` directly; additionally `{data: X}` with `X` of the
`rendered_pages` shape (with a truthy or absent suggested name)
normalizes to the same plan as `X`; other wrapper/shape combinations
fall through to the raw return. -/
theorem extractPlanCandidate_wrapper_partial_unwrap :
    (∀ k ∈ (["data", "result", "survey_plan", "surveyPlan"] : List String),
      ∀ fs xs, fieldLookup "sections" fs = some (.arr xs) →
      extractPlanCandidate (.obj [(k, .obj fs)]) = .ok (.obj fs) ∧
      extractPlanCandidate (.obj fs) = .ok (.obj fs)) ∧
    (∀ (rp : List JsVal) (sg nm : JsVal),
      (truthy (jsOr sg nm) = true ∨ jsOr sg nm = .undef) →
      extractPlanCandidate (.obj [("data", .obj [("rendered_pages", .arr rp),
        ("suggestedName", sg), ("name", nm)])]) =
      extractPlanCandidate (.obj [("rendered_pages", .arr rp),
        ("suggestedName", sg), ("name", nm)])) := by
  constructor
  · intro k hk fs xs h
    have hdirect : extractPlanCandidate (.obj fs) = .ok (.obj fs) := extract_sections_ok h
    simp only [List.mem_cons, List.not_mem_nil, or_false] at hk
    rcases hk with hk | hk | hk | hk <;> subst hk
    · exact ⟨extract_data_wrap h, hdirect⟩
    · exact ⟨extract_result_wrap h, hdirect⟩
    · exact ⟨extract_survey_plan_wrap h, hdirect⟩
    · exact ⟨extract_surveyPlan_wrap h, hdirect⟩
  · intro rp sg nm hng
    have hs : jsOr (jsOr sg nm) .undef = jsOr sg nm := by
      rcases hng with hng | hng
      · exact jsOr_of_truthy _ hng
      · rw [hng]; rfl
    show (exMapM convertRenderedPage rp >>= fun sections =>
        pure (JsVal.obj [("sections", .arr sections),
          ("suggestedName", jsOr (jsOr sg nm) .undef)])) =
      (exMapM convertRenderedPage rp >>= fun sections =>
        pure (JsVal.obj [("sections", .arr sections), ("suggestedName", jsOr sg nm)]))
    rw [hs]

theorem extractPlanCandidate_wrapper_partial_unwrap_witness :
    extractPlanCandidate (.obj [("result", .obj [("sections", .arr [])])]) =
      .ok (.obj [("sections", .arr [])]) ∧
    extractPlanCandidate (.obj [("sections", .arr [])]) =
      .ok (.obj [("sections", .arr [])]) :=
  extractPlanCandidate_wrapper_partial_unwrap.1 "result" (by decide)
    [("sections", .arr [])] [] (by decide)

theorem dropWhile_idem {p : Char → Bool} : ∀ l : List Char,
    (l.dropWhile p).dropWhile p = l.dropWhile p := by
  intro l
  induction l with
  | nil => rfl
  | cons c rest ih =>
    by_cases hc : p c = true
    · rw [List.dropWhile_cons_of_pos hc]
      exact ih
    · rw [List.dropWhile_cons_of_neg hc, List.dropWhile_cons_of_neg hc]

theorem dropWhile_all_false {p : Char → Bool} : ∀ l : List Char, l.all p = false →
    (l.dropWhile p).all p = false := by
  intro l
  induction l with
  | nil => intro h; cases h
  | cons c rest ih =>
    intro h
    by_cases hc : p c = true
    · rw [List.dropWhile_cons_of_pos hc]
      refine ih ?_
      simpa [List.all_cons, hc] using h
    · rw [List.dropWhile_cons_of_neg hc]
      simp [List.all_cons, Bool.eq_false_iff.mpr hc]

theorem dTW_all_ws {L : List Char} (h : L.all jsWsChar = true) :
    dropTrailingWs L = [] := by
  unfold dropTrailingWs
  rw [List.dropWhile_eq_nil_iff.mpr, List.reverse_nil]
  intro x hx
  exact (List.all_eq_true.mp h) x (List.mem_reverse.mp hx)

theorem dTW_cons_not_all {c : Char} {rest : List Char} (h : rest.all jsWsChar = false) :
    dropTrailingWs (c :: rest) = c :: dropTrailingWs rest := by
  unfold dropTrailingWs
  rw [List.reverse_cons, List.dropWhile_append]
  have hne : rest.reverse.dropWhile jsWsChar ≠ [] := by
    intro he
    have hall : ∀ x ∈ rest.reverse, jsWsChar x = true := List.dropWhile_eq_nil_iff.mp he
    have : rest.all jsWsChar = true :=
      List.all_eq_true.mpr (fun x hx => hall x (List.mem_reverse.mpr hx))
    rw [this] at h
    cases h
  rw [if_neg (by simpa [List.isEmpty_iff] using hne)]
  rw [List.reverse_append]
  rfl

theorem dTW_cons_all {c : Char} {rest : List Char} (h : rest.all jsWsChar = true) :
    dropTrailingWs (c :: rest) = if jsWsChar c then [] else [c] := by
  unfold dropTrailingWs
  rw [List.reverse_cons, List.dropWhile_append]
  have hnil : rest.reverse.dropWhile jsWsChar = [] :=
    List.dropWhile_eq_nil_iff.mpr
      (fun x hx => (List.all_eq_true.mp h) x (List.mem_reverse.mp hx))
  rw [if_pos (by simp [hnil])]
  by_cases hc : jsWsChar c = true
  · rw [if_pos hc]
    simp [List.dropWhile, hc]
  · rw [if_neg hc]
    simp [List.dropWhile, hc]

theorem dTW_all_false {L : List Char} (h : L.all jsWsChar = false) :
    (dropTrailingWs L).all jsWsChar = false := by
  unfold dropTrailingWs
  rw [List.all_reverse]
  exact dropWhile_all_false _ (by rwa [List.all_reverse])

theorem jsTrimL_def (cs : List Char) :
    jsTrimL cs = dropTrailingWs (cs.dropWhile jsWsChar) := rfl

theorem trimL_cons_ws {c : Char} {X : List Char} (h : jsWsChar c = true) :
    jsTrimL (c :: X) = jsTrimL X := by
  rw [jsTrimL_def, jsTrimL_def, List.dropWhile_cons_of_pos h]

theorem trimL_all_ws {L : List Char} (h : L.all jsWsChar = true) :
    jsTrimL L = [] := by
  rw [jsTrimL_def, List.dropWhile_eq_nil_iff.mpr (List.all_eq_true.mp h)]
  rfl

theorem trimL_cons_not_ws {c : Char} {X : List Char} (h : jsWsChar c = false) :
    jsTrimL (c :: X) = dropTrailingWs (c :: X) := by
  rw [jsTrimL_def, List.dropWhile_cons_of_neg (by simp [h])]

theorem dTW_trim : ∀ L : List Char, jsTrimL (dropTrailingWs L) = jsTrimL L := by
  intro L
  induction L with
  | nil => rfl
  | cons c rest ih =>
    by_cases hall : rest.all jsWsChar = true
    · by_cases hc : jsWsChar c = true
      · rw [dTW_cons_all hall, if_pos hc]
        rw [trimL_all_ws (L := c :: rest) (by simp [List.all_cons, hc, hall])]
        rfl
      · rw [dTW_cons_all hall, if_neg hc]
        rw [trimL_cons_not_ws (Bool.eq_false_iff.mpr hc),
          trimL_cons_not_ws (Bool.eq_false_iff.mpr hc), dTW_cons_all hall,
          if_neg hc, dTW_cons_all (by rfl), if_neg hc]
    · have hall' : rest.all jsWsChar = false := Bool.eq_false_iff.mpr hall
      rw [dTW_cons_not_all hall']
      by_cases hc : jsWsChar c = true
      · rw [trimL_cons_ws hc, trimL_cons_ws hc]
        exact ih
      · have hc' : jsWsChar c = false := Bool.eq_false_iff.mpr hc
        rw [trimL_cons_not_ws hc', trimL_cons_not_ws hc']
        rw [dTW_cons_not_all hall', dTW_cons_not_all (dTW_all_false hall')]
        congr 1
        have : dropTrailingWs (dropTrailingWs rest) = dropTrailingWs rest := by
          unfold dropTrailingWs
          rw [List.reverse_reverse, dropWhile_idem]
        exact this

theorem afterA_cons_ws {c : Char} {M : List Char} (h : jsWsChar c = true) :
    afterA (c :: M) = afterA M := by
  unfold afterA
  rw [List.takeWhile_cons, if_pos h]
  simp

theorem afterA_none {rem : List Char} (h : '/' ∉ rem) : afterA rem = none := by
  unfold afterA
  cases hd : rem.drop (rem.takeWhile jsWsChar).length with
  | nil => rfl
  | cons c R =>
    have hc : c ∈ rem := by
      have h1 : c ∈ rem.drop (rem.takeWhile jsWsChar).length := by rw [hd]; simp
      exact List.mem_of_mem_drop h1
    show (if c = '/' then slashTail R else none) = none
    rw [if_neg (by intro he; exact h (he ▸ hc))]

theorem afterA_eq {R : List Char} : ∀ (M : List Char), '/' ∉ M →
    afterA (M ++ '/' :: R) = if M.all jsWsChar = true then slashTail R else none := by
  intro M
  induction M with
  | nil =>
    intro _
    rw [if_pos (by simp)]
    unfold afterA
    rw [List.nil_append, List.takeWhile_cons, if_neg (by decide)]
    simp
  | cons c rest ih =>
    intro h
    have hc : c ≠ '/' := fun he => h (he ▸ List.mem_cons_self _ _)
    have hrest : '/' ∉ rest := fun hm => h (List.mem_cons_of_mem _ hm)
    by_cases hws : jsWsChar c = true
    · rw [List.cons_append, afterA_cons_ws hws, ih hrest]
      by_cases hall : rest.all jsWsChar = true
      · rw [if_pos hall, if_pos (by simp [List.all_cons, hws, hall])]
      · rw [if_neg hall, if_neg (by
          simp only [List.all_cons, Bool.and_eq_true, hws, true_and]
          exact hall)]
    · rw [if_neg (by
        simp only [List.all_cons, Bool.and_eq_true]
        rintro ⟨h1, _⟩
        exact hws h1)]
      unfold afterA
      rw [List.cons_append, List.takeWhile_cons, if_neg hws]
      simp only [List.length_nil, List.drop_zero]
      rw [if_neg hc]

theorem goA_noslash : ∀ {rem : List Char}, '/' ∉ rem → ∀ acc, goA acc rem = none := by
  intro rem
  induction rem with
  | nil => intro _ _; rfl
  | cons c rest ih =>
    intro h acc
    have h1 : '/' ∉ rest := fun hm => h (List.mem_cons_of_mem _ hm)
    unfold goA
    by_cases hdot : jsDotChar c = true
    · rw [if_pos hdot, afterA_none h1]
      exact ih h1 _
    · rw [if_neg hdot]

theorem pickB_some_of_lt {R : List Char} (hdot : R.all jsDotChar = true) :
    ∀ i, i < R.length → pickB R i = some (R.drop i) := by
  intro i hi
  have hdrop : (R.drop i).all jsDotChar = true := by
    rw [List.all_eq_true] at hdot ⊢
    exact fun x hx => hdot x (List.mem_of_mem_drop hx)
  have hne : R.drop i ≠ [] := by
    intro he
    have := List.drop_eq_nil_iff.mp he
    omega
  cases i with
  | zero =>
    unfold pickB
    rw [if_pos ⟨by simpa using hne, by simpa using hdrop⟩]
    simp
  | succ j =>
    unfold pickB
    rw [if_pos ⟨hne, hdrop⟩]

theorem drop_takeWhile_length (R : List Char) :
    R.drop (R.takeWhile jsWsChar).length = R.dropWhile jsWsChar :=
  calc R.drop (R.takeWhile jsWsChar).length
      = ((R.takeWhile jsWsChar) ++ (R.dropWhile jsWsChar)).drop
          (R.takeWhile jsWsChar).length := by
        rw [List.takeWhile_append_dropWhile]
    _ = R.dropWhile jsWsChar := List.drop_left _ _

theorem slashTail_some {R : List Char} (hdot : R.all jsDotChar = true) (hne : R ≠ []) :
    ∃ B, slashTail R = some B ∧ jsTrimL B = jsTrimL R := by
  unfold slashTail
  by_cases hlt : (R.takeWhile jsWsChar).length < R.length
  · refine ⟨R.drop (R.takeWhile jsWsChar).length, pickB_some_of_lt hdot _ hlt, ?_⟩
    rw [drop_takeWhile_length]
    rw [jsTrimL_def R, jsTrimL_def (R.dropWhile jsWsChar), dropWhile_idem]
  · have hlen : (R.takeWhile jsWsChar).length = R.length := by
      have := (List.takeWhile_prefix (l := R) jsWsChar).length_le
      omega
    have hallws : R.all jsWsChar = true := by
      have htw : R.takeWhile jsWsChar = R :=
        (List.takeWhile_prefix _).eq_of_length hlen
      rw [List.all_eq_true]
      intro x hx
      exact List.mem_takeWhile_imp (htw ▸ hx)
    cases hR : R.length with
    | zero => exact absurd (List.length_eq_zero.mp hR) hne
    | succ n =>
      rw [hlen, hR]
      refine ⟨R.drop n, ?_, ?_⟩
      · unfold pickB
        rw [if_neg (by
          rintro ⟨h1, _⟩
          exact h1 (by rw [List.drop_eq_nil_iff]; omega))]
        exact pickB_some_of_lt hdot n (by omega)
      · rw [trimL_all_ws hallws, trimL_all_ws]
        rw [List.all_eq_true] at hallws ⊢
        exact fun x hx => hallws x (List.mem_of_mem_drop hx)

theorem slashTail_nil : slashTail [] = none := rfl

/-- The lazy scan on a single-slash split input: the first capture group
is the left side less its trailing whitespace (or its first character if
the left side is all whitespace), the second is `slashTail`'s pick. -/
theorem goA_eq {R : List Char} (hRs : '/' ∉ R) :
    ∀ (L : List Char), '/' ∉ L → L.all jsDotChar = true →
    ∀ acc, goA acc (L ++ '/' :: R) =
      (slashTail R).elim none (fun B =>
        if L.all jsWsChar = true then
          L.head?.elim none (fun c => some (acc ++ [c], B))
        else some (acc ++ dropTrailingWs L, B)) := by
  intro L
  induction L with
  | nil =>
    intro _ _ acc
    rw [List.nil_append]
    unfold goA
    rw [if_pos (by decide), afterA_none hRs, goA_noslash hRs]
    cases slashTail R <;> simp
  | cons c rest ih =>
    intro hL hdot acc
    have hc : c ≠ '/' := fun he => hL (he ▸ List.mem_cons_self _ _)
    have hrest : '/' ∉ rest := fun hm => hL (List.mem_cons_of_mem _ hm)
    rw [List.all_cons, Bool.and_eq_true] at hdot
    rw [List.cons_append]
    unfold goA
    rw [if_pos hdot.1, afterA_eq rest hrest]
    by_cases hws : rest.all jsWsChar = true
    · rw [if_pos hws]
      cases hst : slashTail R with
      | none =>
        rw [ih hrest hdot.2 (acc ++ [c]), hst]
        rfl
      | some B =>
        simp only [Option.elim]
        by_cases hwc : jsWsChar c = true
        · rw [if_pos (by simp [List.all_cons, hwc, hws])]
          rfl
        · rw [if_neg (by
            simp only [List.all_cons, Bool.and_eq_true]
            rintro ⟨h1, _⟩
            exact hwc h1)]
          rw [dTW_cons_all hws, if_neg hwc]
    · rw [if_neg hws]
      rw [ih hrest hdot.2 (acc ++ [c])]
      have hws' : rest.all jsWsChar = false := Bool.eq_false_iff.mpr hws
      cases hst : slashTail R with
      | none => rfl
      | some B =>
        simp only [Option.elim]
        rw [if_neg hws, if_neg (by
          simp only [List.all_cons, Bool.and_eq_true]
          rintro ⟨_, h2⟩
          exact hws h2)]
        rw [dTW_cons_not_all hws']
        simp

/-- C6 counterexample: on `"a/b\nc"` — a single `/` with both sides
non-empty and distinct after trimming — the resolver does NOT split: the
regex `.` cannot cross the newline, so the monolingual fallback fires and
both languages get the whole string, not `{en:"a", ar:"b\nc"}`. -/
theorem getBothLanguages_newline_no_split :
    getBothLanguages (.str "a/b\nc") =
      .obj [("en", .str "a/b\nc"), ("ar", .str "a/b\nc")] ∧
    ("a/b\nc" : String) = "a" ++ "/" ++ "b\nc" ∧
    jsTrim "a" ≠ "" ∧ jsTrim "b\nc" ≠ "" ∧ jsTrim "a" ≠ jsTrim "b\nc" ∧
    JsVal.obj [("en", .str "a/b\nc"), ("ar", .str "a/b\nc")] ≠
      JsVal.obj [("en", .str "a"), ("ar", .str "b\nc")] := by
  decide

/-- C6 (amended): for a plain string consisting of a single `/` between
two slash-free sides with no line-terminator characters, the resolver
splits into the trimmed sides exactly when both are non-empty and differ
after trimming, and otherwise returns the same string for both languages
(line terminators defeat the regex `.`, as the counterexample shows);
slash-free strings are monolingual; `null`/`undefined` give empty
strings; and the spec's concrete examples hold. -/
theorem getBothLanguages_single_slash_spec :
    (∀ L R : List Char, '/' ∉ L → '/' ∉ R → (L ++ R).all jsDotChar = true →
      getBothLanguages (.str ⟨L ++ '/' :: R⟩) =
        (if jsTrim ⟨L⟩ ≠ "" ∧ jsTrim ⟨R⟩ ≠ "" ∧ jsTrim ⟨L⟩ ≠ jsTrim ⟨R⟩ then
          .obj [("en", .str (jsTrim ⟨L⟩)), ("ar", .str (jsTrim ⟨R⟩))]
        else .obj [("en", .str ⟨L ++ '/' :: R⟩), ("ar", .str ⟨L ++ '/' :: R⟩)])) ∧
    (∀ s : String, '/' ∉ s.data →
      getBothLanguages (.str s) = .obj [("en", .str s), ("ar", .str s)]) ∧
    getBothLanguages .null = .obj [("en", .str ""), ("ar", .str "")] ∧
    getBothLanguages .undef = .obj [("en", .str ""), ("ar", .str "")] ∧
    getBothLanguages (.str "Hello / مرحبا") =
      .obj [("en", .str "Hello"), ("ar", .str "مرحبا")] ∧
    getBothLanguages (.str "Hello") =
      .obj [("en", .str "Hello"), ("ar", .str "Hello")] := by
  refine ⟨?_, ?_, by decide, by decide, by decide, by decide⟩
  · intro L R hL hR hdot
    rw [List.all_append, Bool.and_eq_true] at hdot
    have hne : (⟨L ++ '/' :: R⟩ : String) ≠ "" := by
      intro he
      have hd := congrArg String.data he
      simp at hd
    have htr : truthy (JsVal.str ⟨L ++ '/' :: R⟩) = true := by
      simp [truthy, hne]
    have hmc : matchCombined ⟨L ++ '/' :: R⟩ =
        (slashTail R).elim none (fun B =>
          if L.all jsWsChar = true then
            L.head?.elim none (fun c => some (([] : List Char) ++ [c], B))
          else some (([] : List Char) ++ dropTrailingWs L, B)) :=
      goA_eq hR L hL hdot.1 []
    simp only [List.nil_append] at hmc
    unfold getBothLanguages
    rw [if_neg (by simp [htr])]
    show (matchCombined ⟨L ++ '/' :: R⟩).elim _ _ = _
    by_cases hRnil : R = []
    · subst hRnil
      rw [hmc, slashTail_nil]
      simp only [Option.elim]
      rw [if_neg (by rintro ⟨_, h2, _⟩; exact h2 (by decide))]
    · obtain ⟨B, hst, hB⟩ := slashTail_some hdot.2 hRnil
      rw [hmc, hst]
      simp only [Option.elim]
      by_cases hLws : L.all jsWsChar = true
      · rw [if_pos hLws]
        cases L with
        | nil =>
          simp only [List.head?, Option.elim]
          rw [if_neg (by rintro ⟨h1, _, _⟩; exact h1 (by decide))]
        | cons c rest =>
          simp only [List.head?, Option.elim]
          have hcws : jsWsChar c = true := by
            rw [List.all_cons, Bool.and_eq_true] at hLws
            exact hLws.1
          have htc : jsTrim ⟨[c]⟩ = "" := by
            show (⟨jsTrimL [c]⟩ : String) = ""
            rw [trimL_all_ws (L := [c]) (by simp [List.all_cons, hcws])]
          rw [if_neg (by rintro ⟨h1, _, _⟩; exact h1 htc)]
          rw [if_neg (by
            rintro ⟨h1, _, _⟩
            refine h1 ?_
            show (⟨jsTrimL (c :: rest)⟩ : String) = ""
            rw [trimL_all_ws hLws])]
      · rw [if_neg hLws]
        simp only [Option.elim]
        have h1 : jsTrim ⟨dropTrailingWs L⟩ = jsTrim ⟨L⟩ := by
          show (⟨jsTrimL (dropTrailingWs L)⟩ : String) = ⟨jsTrimL L⟩
          rw [dTW_trim]
        have h2 : jsTrim ⟨B⟩ = jsTrim ⟨R⟩ := by
          show (⟨jsTrimL B⟩ : String) = ⟨jsTrimL R⟩
          rw [hB]
        rw [h1, h2]
  · intro s hs
    by_cases hempty : s = ""
    · subst hempty
      decide
    · have htr : truthy (JsVal.str s) = true := by simp [truthy, hempty]
      unfold getBothLanguages
      rw [if_neg (by simp [htr])]
      show (matchCombined s).elim _ _ = _
      rw [show matchCombined s = none from goA_noslash hs []]
      rfl

theorem getBothLanguages_single_slash_spec_witness :
    getBothLanguages (.str ⟨['a'] ++ '/' :: ['b']⟩) =
      .obj [("en", .str "a"), ("ar", .str "b")] := by
  have h := getBothLanguages_single_slash_spec.1 ['a'] ['b']
    (by decide) (by decide) (by decide)
  rw [h]
  decide

end SurveyFE
